/-
  Verification of the pid-symbols classification-and-geometry pipeline.

  This file gives a shallow embedding of the core of the repository:
    * the classification cascade        (classifier.py / main.py)
    * snap-point (port) detection       (src/snap_points.py / main.py)
    * content-identity canonicalization (src/utils.py, main.py)
    * registry deduplication            (main.py, main loop)
    * collision-free stem resolution    (metadata.py / main.py, resolve_stem)

  Modelling conventions:
    * Python strings are Lean `String`s; character-level helpers work on
      `String.data` (`List Char`).  Python's `str.lower` / `str.strip` are
      modelled for ASCII, which covers every string the pipeline handles.
    * Python floats are modelled as exact fractions `PyNum` (a numerator /
      positive denominator pair of integers); the pipeline only adds,
      subtracts, multiplies, halves and compares coordinates, so exact
      rational arithmetic agrees with IEEE semantics on the inputs at issue.
    * regular expressions are hand-compiled to explicit scanners with the
      same left-most, non-overlapping match semantics used by `re.sub` /
      `re.findall`.
    * Python's stable `sorted` is modelled by `List.insertionSort`, which is
      a stable sort, hence produces the identical output list.
    * `hashlib.sha256` is external library code, not part of the repository;
      digests are modelled by an arbitrary digest function parameter, which
      is sound for every property of the form "equal inputs give equal
      digests".
-/
import Mathlib

/-! # Part A: definitions -/

/-! ## A.0 character and string helpers -/

/-- ASCII lower-casing of one character, as `str.lower` does on ASCII. -/
def lowerChar (c : Char) : Char :=
  if 'A' ≤ c ∧ c ≤ 'Z' then Char.ofNat (c.toNat + 32) else c

/-- ASCII `str.lower`. -/
def pyLower (s : String) : String :=
  (s.data.map lowerChar).asString

/-- Python `\w` (ASCII): letters, digits, underscore. -/
def isWordChar (c : Char) : Bool :=
  ('a' ≤ c ∧ c ≤ 'z') ∨ ('A' ≤ c ∧ c ≤ 'Z') ∨ ('0' ≤ c ∧ c ≤ '9') ∨ c = '_'

/-- Python `\s` (ASCII): space, tab, newline, carriage return, form feed, vertical tab. -/
def isSpaceChar (c : Char) : Bool :=
  c = ' ' ∨ c = '\t' ∨ c = '\n' ∨ c = '\r' ∨ c = '\x0b' ∨ c = '\x0c'

def isDigitChar (c : Char) : Bool :=
  '0' ≤ c ∧ c ≤ '9'

/-- List prefix test (`str.startswith` on char lists). -/
def lcStartsWith : List Char → List Char → Bool
  | _, [] => true
  | [], _ :: _ => false
  | c :: cs, d :: ds => c = d ∧ lcStartsWith cs ds

/-- Substring containment, Python's `needle in hay`. -/
def lcContains (hay needle : List Char) : Bool :=
  match hay with
  | [] => lcStartsWith [] needle
  | _ :: rest => lcStartsWith hay needle || lcContains rest needle

/-- Python `sub in s` on strings. -/
def pyContains (s sub : String) : Bool :=
  lcContains s.data sub.data

/-- Python `s.startswith(p)` on strings. -/
def pyStartsWith (s p : String) : Bool :=
  lcStartsWith s.data p.data

/-- Strip a leading run of characters satisfying `p`. -/
def lcDropWhile (p : Char → Bool) : List Char → List Char
  | [] => []
  | c :: cs => if p c then lcDropWhile p cs else c :: cs

/-- Python `s.strip()` restricted to a character predicate
(used for `.strip()` and `.strip(",")`). -/
def pyStripP (p : Char → Bool) (s : String) : String :=
  ((lcDropWhile p (lcDropWhile p s.data).reverse).reverse).asString

/-- Python `s.strip()` (whitespace). -/
def pyStrip (s : String) : String :=
  pyStripP (fun c => isSpaceChar c) s

/-! ## A.1 exact fractional numbers standing in for Python floats

`PyNum` values produced by the pipeline always have a positive denominator.
Value equality and ordering are by cross multiplication. -/

structure PyNum where
  num : Int
  den : Int
  deriving DecidableEq, Repr

def PyNum.ofInt (n : Int) : PyNum := ⟨n, 1⟩

instance : OfNat PyNum n := ⟨PyNum.ofInt n⟩

def PyNum.add (a b : PyNum) : PyNum := ⟨a.num * b.den + b.num * a.den, a.den * b.den⟩

def PyNum.sub (a b : PyNum) : PyNum := ⟨a.num * b.den - b.num * a.den, a.den * b.den⟩

def PyNum.mul (a b : PyNum) : PyNum := ⟨a.num * b.num, a.den * b.den⟩

def PyNum.neg (a : PyNum) : PyNum := ⟨-a.num, a.den⟩

/-- Division; keeps the denominator positive.  The pipeline only divides by
the nonzero constants 2 and 100 and by nonzero squared lengths. -/
def PyNum.div (a b : PyNum) : PyNum :=
  if b.num < 0 then ⟨-(a.num * b.den), a.den * (-b.num)⟩ else ⟨a.num * b.den, a.den * b.num⟩

instance : Add PyNum := ⟨PyNum.add⟩
instance : Sub PyNum := ⟨PyNum.sub⟩
instance : Mul PyNum := ⟨PyNum.mul⟩
instance : Neg PyNum := ⟨PyNum.neg⟩
instance : Div PyNum := ⟨PyNum.div⟩

/-- Value equality (Python `==` on numbers). -/
def PyNum.eqv (a b : PyNum) : Bool := a.num * b.den = b.num * a.den

/-- Value order (Python `<=`). -/
def PyNum.le (a b : PyNum) : Bool := a.num * b.den ≤ b.num * a.den

/-- Value order (Python `<`). -/
def PyNum.lt (a b : PyNum) : Bool := a.num * b.den < b.num * a.den

def PyNum.abs (a : PyNum) : PyNum := ⟨|a.num|, a.den⟩

def PyNum.pyMin (a b : PyNum) : PyNum := if PyNum.le a b then a else b

def PyNum.pyMax (a b : PyNum) : PyNum := if PyNum.le a b then b else a

/-- Python 3 `round(x)`: round half to even, returning an integer. -/
def PyNum.pyRound (a : PyNum) : Int :=
  let f := Int.fdiv a.num a.den
  let r2 := 2 * (a.num - f * a.den)
  if r2 < a.den then f
  else if a.den < r2 then f + 1
  else if f % 2 = 0 then f else f + 1

/-- Python `round(x, 2)` under exact decimal semantics. -/
def PyNum.round2 (a : PyNum) : PyNum :=
  ⟨PyNum.pyRound ⟨a.num * 100, a.den⟩, 100⟩

/-- A `PyNum` holds an integer value. -/
def PyNum.isInt (a : PyNum) : Prop := ∃ n : Int, a = PyNum.ofInt n

/-! ## A.2 number-literal scanning

`float(s)` conversion and the number-extraction regular expression
`[-+]?\d*\.?\d+(?:[eE][-+]?\d+)?` used by the path grammar. -/

def digitVal (c : Char) : Int := Int.ofNat (c.toNat - '0'.toNat)

def lcDigitsToInt (acc : Int) : List Char → Int
  | [] => acc
  | c :: cs => lcDigitsToInt (acc * 10 + digitVal c) cs

/-- Build the rational value `sign * (ipart.fpart) * 10^expo`. -/
def buildNum (negSign : Bool) (ipart fpart : List Char) (expoNeg : Bool)
    (expo : List Char) : PyNum :=
  let mant : Int := lcDigitsToInt (lcDigitsToInt 0 ipart) fpart
  let mant : Int := if negSign then -mant else mant
  let e10 : Nat := (lcDigitsToInt 0 expo).toNat
  if expoNeg then
    ⟨mant, Int.ofNat ((10 : Nat) ^ (e10 + fpart.length))⟩
  else
    ⟨mant * Int.ofNat ((10 : Nat) ^ e10), Int.ofNat ((10 : Nat) ^ fpart.length)⟩

/-- Try to match the float literal regular expression at the head of `cs`;
on success return the parsed value and the rest of the input.
The shape is: optional sign, `\d*`, optional `.`, `\d+`, optional exponent. -/
def matchNumAt (cs : List Char) : Option (PyNum × List Char) :=
  let (negSign, cs1) :=
    match cs with
    | '-' :: t => (true, t)
    | '+' :: t => (false, t)
    | _ => (false, cs)
  let ipart := cs1.takeWhile isDigitChar
  let cs2 := cs1.drop ipart.length
  let (fpart, cs3) :=
    match cs2 with
    | '.' :: t =>
      let f := t.takeWhile isDigitChar
      (f, t.drop f.length)
    | _ => ([], cs2)
  -- `\d*\.?\d+` requires the final digit run to be nonempty: with a dot the
  -- fractional digits are mandatory; without a dot the integer digits are.
  if (fpart.isEmpty && ipart.isEmpty) = true then none
  else
    let (usedF, usedI, rest) :=
      if fpart.isEmpty then
        -- no fractional digits: a trailing '.' (if any) is not consumed
        ([], ipart, cs1.drop ipart.length)
      else (fpart, ipart, cs3)
    match rest with
    | 'e' :: t | 'E' :: t =>
      let (en, t1) :=
        match t with
        | '-' :: u => (true, u)
        | '+' :: u => (false, u)
        | _ => (false, t)
      let ed := t1.takeWhile isDigitChar
      if ed.isEmpty then some (buildNum negSign usedI usedF false [], rest)
      else some (buildNum negSign usedI usedF en ed, t1.drop ed.length)
    | _ => some (buildNum negSign usedI usedF false [], rest)

/-- All float literals in a string, left to right, non-overlapping
(`re.findall` with the float pattern).  Fueled scanner; fuel is the length
of the input plus one, which is always sufficient since every step consumes
at least one character. -/
def scanNums : Nat → List Char → List PyNum
  | 0, _ => []
  | _ + 1, [] => []
  | fuel + 1, c :: cs =>
    match matchNumAt (c :: cs) with
    | some (v, rest) => v :: scanNums fuel rest
    | none => scanNums fuel cs

def findallNums (s : String) : List PyNum :=
  scanNums (s.data.length + 1) s.data

/-- Parse an optional decimal exponent part (`e`/`E`, optional sign, digits)
which must consume the whole remaining input. -/
def parseExpoEnd : List Char → Option (Bool × List Char)
  | [] => some (false, [])
  | 'e' :: t | 'E' :: t =>
    let (en, t1) :=
      match t with
      | '-' :: u => (true, u)
      | '+' :: u => (false, u)
      | _ => (false, t)
    let ed := t1.takeWhile isDigitChar
    if ed.isEmpty ∨ t1.drop ed.length ≠ [] then none else some (en, ed)
  | _ => none

/-- Python `float(s)` on a decimal string: strip whitespace, then the whole
remainder must follow the grammar
`[sign] (digits ['.'] [digits] | '.' digits) ['e' [sign] digits]`.
Returns `none` where CPython raises `ValueError`. -/
def pyFloat? (s : String) : Option PyNum :=
  let t := (pyStrip s).data
  let (negSign, t1) :=
    match t with
    | '-' :: u => (true, u)
    | '+' :: u => (false, u)
    | _ => (false, t)
  let ipart := t1.takeWhile isDigitChar
  let t2 := t1.drop ipart.length
  let (fpart, t3) :=
    match t2 with
    | '.' :: u =>
      let f := u.takeWhile isDigitChar
      (some f, u.drop f.length)
    | _ => (none, t2)
  if ipart.isEmpty ∧ (fpart.getD []).isEmpty then none
  else
    match parseExpoEnd t3 with
    | some (en, ed) => some (buildNum negSign ipart (fpart.getD []) en ed)
    | none => none

/-! ## A.3 classification cascade (classifier.py, src/constants.py, src/utils.py)

A source file is abstracted as `SvgPath`: its full path components
(`Path.parts`) and, when it lies under the corpus input root, its components
relative to `INPUT_DIR` (`none` models the `ValueError` raised by
`Path.relative_to`). -/

structure SvgPath where
  parts : List String
  rel : Option (List String)
  deriving DecidableEq, Repr

/-- `pathlib` file name: the last path component. -/
def SvgPath.name (p : SvgPath) : String := p.parts.getLastD ""

/-- `pathlib` stem: the name with its suffix removed; the suffix starts at
the last dot provided that dot is neither the first nor the last character. -/
def pyStem (name : String) : String :=
  let ds := name.data
  match ds.reverse.findIdx? (· = '.') with
  | none => name
  | some j =>
    let i := ds.length - 1 - j
    if 0 < i ∧ i < ds.length - 1 then (ds.take i).asString else name

def SvgPath.stem (p : SvgPath) : String := pyStem p.name

/-- `svg_path.parent.name`. -/
def SvgPath.parentName (p : SvgPath) : String := p.parts.dropLast.getLastD ""

structure ClassificationResult where
  standard : String
  category : String
  subcategory : String
  confidence : String
  method : String
  deriving DecidableEq, Repr

/-! ### constants.py: classification maps -/

def AUTOCAD_FOLDER_MAP : List (String × String × String) := [
  ("isa_actuator_svg",      ("ISA",         "actuator")),
  ("isa_equipment1_svg",    ("ISA",         "equipment")),
  ("isa_equipment2_svg",    ("ISA",         "equipment")),
  ("isa_flow_svg",          ("ISA",         "flow")),
  ("isa_relief_valves_svg", ("ISA",         "relief_valve")),
  ("isa_valves_svg",        ("ISA",         "valve")),
  ("iso_agitators_svg",     ("ISO 10628-2", "agitator")),
  ("iso_equipment_svg",     ("ISO 10628-2", "equipment")),
  ("iso_instruments_svg",   ("ISO 10628-2", "instrument")),
  ("iso_nozzles_svg",       ("ISO 10628-2", "nozzle"))]

def DOWNLOADED_FOLDER_MAP : List (String × String) := [
  ("agitators",                                    "agitator"),
  ("apparaturs_elements",                          "apparatus_element"),
  ("centrifuges",                                  "centrifuge"),
  ("check_valves",                                 "check_valve"),
  ("columns",                                      "column"),
  ("compressors",                                  "compressor"),
  ("cooling_towers",                               "cooling_tower"),
  ("crushing_machines",                            "crushing_machine"),
  ("driers",                                       "drier"),
  ("engines",                                      "engine"),
  ("fans",                                         "fan"),
  ("filters",                                      "filter"),
  ("fittings",                                     "fitting"),
  ("heat_exchangers",                              "heat_exchanger"),
  ("internals",                                    "internal"),
  ("lifting,_conveying_and_transport_equipment",   "lifting_equipment"),
  ("liquid_pumps",                                 "pump"),
  ("mixers_and_kneaders",                          "mixer"),
  ("pipes",                                        "pipe"),
  ("screening_devices,_sieves,_and_rakes",         "screening_device"),
  ("separators",                                   "separator"),
  ("shaping_machines",                             "shaping_machine"),
  ("steam_generators,_furnaces,_recooling_device", "steam_generator"),
  ("tanks_and_containers",                         "tank"),
  ("valves",                                       "valve"),
  ("ventilation",                                  "ventilation")]

def GENERATED_PREFIX_MAP : List (String × String × String) := [
  ("valve_",     ("ISA", "valve")),
  ("cv_",        ("ISA", "control_valve")),
  ("actuator_",  ("ISA", "actuator")),
  ("equip_",     ("ISA", "equipment")),
  ("line_",      ("ISA", "line_type")),
  ("logic_",     ("ISA", "logic")),
  ("piping_",    ("ISA", "piping")),
  ("safety_",    ("ISA", "safety")),
  ("regulator_", ("ISA", "regulator")),
  ("acc_",       ("ISA", "accessory")),
  ("conn_",      ("ISA", "connection")),
  ("ann_",       ("ISA", "annotation")),
  ("primary_",   ("ISA", "primary_element")),
  ("bubble_",    ("ISA", "instrument_bubble")),
  ("fail_",      ("ISA", "fail_position"))]

def KEYWORD_HEURISTICS : List (String × String) := [
  ("valve",          "valve"),
  ("actuator",       "actuator"),
  ("pump",           "pump"),
  ("compressor",     "compressor"),
  ("agitator",       "agitator"),
  ("stirrer",        "agitator"),
  ("heat_exchanger", "heat_exchanger"),
  ("exchanger",      "heat_exchanger"),
  ("filter",         "filter"),
  ("separator",      "separator"),
  ("centrifuge",     "centrifuge"),
  ("column",         "column"),
  ("tank",           "tank"),
  ("vessel",         "vessel"),
  ("reactor",        "reactor"),
  ("furnace",        "furnace"),
  ("boiler",         "steam_generator"),
  ("conveyor",       "lifting_equipment"),
  ("crusher",        "crushing_machine"),
  ("dryer",          "drier"),
  ("drier",          "drier"),
  ("fan",            "fan"),
  ("blower",         "fan"),
  ("instrument",     "instrument"),
  ("sensor",         "instrument"),
  ("nozzle",         "nozzle"),
  ("relief",         "relief_valve"),
  ("safety",         "safety"),
  ("solenoid",       "actuator"),
  ("diaphragm",      "actuator"),
  ("piston",         "actuator"),
  ("positioner",     "accessory"),
  ("handwheel",      "actuator"),
  ("bubble",         "instrument_bubble"),
  ("instrument",     "instrument"),
  ("logic",          "logic"),
  ("interlock",      "logic"),
  ("orifice",        "primary_element"),
  ("thermowell",     "primary_element"),
  ("venturi",        "primary_element"),
  ("pipe",           "piping"),
  ("fitting",        "fitting"),
  ("flange",         "fitting"),
  ("mixer",          "mixer"),
  ("kneader",        "mixer"),
  ("gear",           "drive"),
  ("motor",          "drive"),
  ("turbine",        "drive"),
  ("engine",         "drive"),
  ("autoclave",      "reactor"),
  ("bag",            "tank"),
  ("funnel",         "fitting"),
  ("gas bottle",     "tank"),
  ("gas cylinder",   "tank"),
  ("knock-out",      "separator"),
  ("knockout",       "separator"),
  ("knock_out",      "separator"),
  ("liftequip",      "lifting_equipment"),
  ("lift equip",     "lifting_equipment"),
  ("sieve",          "screening_device"),
  ("steam trap",     "fitting"),
  ("steam_trap",     "fitting"),
  ("dust trap",      "filter"),
  ("dust_trap",      "filter"),
  ("elutriator",     "separator"),
  ("viewing glass",  "instrument"),
  ("viewing_glass",  "instrument"),
  ("computer function", "instrument_bubble"),
  ("control function",  "instrument_bubble"),
  ("discrete instrument", "instrument_bubble"),
  ("scrubber",       "separator"),
  ("cyclone",        "separator"),
  ("strainer",       "filter"),
  ("screen",         "screening_device"),
  ("hopper",         "tank"),
  ("bin",            "tank"),
  ("silo",           "tank"),
  ("evaporator",     "heat_exchanger"),
  ("condenser",      "heat_exchanger"),
  ("reboiler",       "heat_exchanger"),
  ("cooler",         "heat_exchanger"),
  ("heater",         "heat_exchanger"),
  ("spray nozzle",   "nozzle"),
  ("spray_nozzle",   "nozzle"),
  ("manhole",        "apparatus_element"),
  ("support",        "apparatus_element"),
  ("socket",         "nozzle"),
  ("vent",           "piping")]

def PIPING_STEM_PREFIXES : List String := ["pip_", "pipa_"]

/-! ### constants.py: compiled regular expressions -/

/-- Match a literal (already lower-case) against lower-cased input; return
the rest on success. -/
def matchLitCI : List Char → List Char → Option (List Char)
  | cs, [] => some cs
  | [], _ :: _ => none
  | c :: cs, d :: ds => if lowerChar c = d then matchLitCI cs ds else none

/-- Match `\s+`: at least one whitespace character. -/
def matchWs1 (cs : List Char) : Option (List Char) :=
  match cs with
  | c :: t => if isSpaceChar c then some (lcDropWhile isSpaceChar t) else none
  | [] => none

/-- Match `\d`: one digit. -/
def matchDigit (cs : List Char) : Option (List Char) :=
  match cs with
  | c :: t => if isDigitChar c then some t else none
  | [] => none

/-- `_REFERENCE_RE` tried at one position (case-insensitive alternation of
`symbols\s+sheet\s+\d`, `symbols\s+iso`, `p&id\s+x\d`, `p&id\s+drawing`). -/
def refMatchAt (cs : List Char) : Bool :=
  (do
    let r ← matchLitCI cs "symbols".data
    let r ← matchWs1 r
    let r ← matchLitCI r "sheet".data
    let r ← matchWs1 r
    let _ ← matchDigit r
    pure ()).isSome ||
  (do
    let r ← matchLitCI cs "symbols".data
    let r ← matchWs1 r
    let _ ← matchLitCI r "iso".data
    pure ()).isSome ||
  (do
    let r ← matchLitCI cs "p&id".data
    let r ← matchWs1 r
    let r ← matchLitCI r "x".data
    let _ ← matchDigit r
    pure ()).isSome ||
  (do
    let r ← matchLitCI cs "p&id".data
    let r ← matchWs1 r
    let _ ← matchLitCI r "drawing".data
    pure ()).isSome

/-- `_REFERENCE_RE.search`: does any position match? -/
def refSearchL : List Char → Bool
  | [] => refMatchAt []
  | c :: cs => refMatchAt (c :: cs) || refSearchL cs

def refSearch (s : String) : Bool := refSearchL s.data

/-- `_STANDARD_RE` = `\(\s*((?:ISO|DIN|ISA)\s*[\d\-]+(?:-\d+)?)\s*\)`
(case-insensitive) tried at one position.  On success, return the text of
capture group 1 (from the original string) and the rest of the input after
the whole match.  The character class `[\d\-]+` is greedy, and a shorter
match can never be followed by `\s*\)`, so no backtracking is observable. -/
def stdMatchAt (cs : List Char) : Option (List Char × List Char) :=
  match cs with
  | '(' :: t =>
    let t1 := lcDropWhile isSpaceChar t
    let body? :=
      match matchLitCI t1 "iso".data with
      | some r => some r
      | none =>
        match matchLitCI t1 "din".data with
        | some r => some r
        | none => matchLitCI t1 "isa".data
    match body? with
    | none => none
    | some afterWord =>
      let sp := afterWord.takeWhile isSpaceChar
      let afterSp := afterWord.drop sp.length
      let run := afterSp.takeWhile (fun c => isDigitChar c || c = '-')
      if run.isEmpty then none
      else
        let afterRun := afterSp.drop run.length
        let group1 := t1.take 3 ++ sp ++ run
        match lcDropWhile isSpaceChar afterRun with
        | ')' :: rest => some (group1, rest)
        | _ => none
  | _ => none

/-- `_STANDARD_RE.search`, returning capture group 1 of the first match. -/
def findStdGroup : List Char → Option (List Char)
  | [] => none
  | c :: cs =>
    match stdMatchAt (c :: cs) with
    | some (g, _) => some g
    | none => findStdGroup cs

/-- `_STANDARD_RE.sub("", s)`: delete all (leftmost, non-overlapping)
matches.  Fueled; every match consumes at least one character. -/
def stdSubL : Nat → List Char → List Char
  | 0, cs => cs
  | _ + 1, [] => []
  | fuel + 1, c :: cs =>
    match stdMatchAt (c :: cs) with
    | some (_, rest) => stdSubL fuel rest
    | none => c :: stdSubL fuel cs

def stdSub (s : String) : String := (stdSubL (s.data.length + 1) s.data).asString

/-! ### utils.py helpers -/

/-- `utils._extract_standard_from_name`. -/
def _extract_standard_from_name (stem : String) : Option String :=
  (findStdGroup stem.data).map (fun g => pyStrip g.asString)

/-- One character of the `_slugify` separator class `[\s\-,/\\]`. -/
def isSlugSep (c : Char) : Bool :=
  isSpaceChar c || c = '-' || c = ',' || c = '/' || c = '\\'

/-- Replace every maximal run of characters satisfying `sep` by one `repl`
(the effect of `re.sub(r"[..]+", repl, s)`); `prevSep` records whether the
previous character was part of a run. -/
def collapseRuns (sep : Char → Bool) (repl : Char) : Bool → List Char → List Char
  | _, [] => []
  | prevSep, c :: cs =>
    if sep c then
      if prevSep then collapseRuns sep repl true cs
      else repl :: collapseRuns sep repl true cs
    else c :: collapseRuns sep repl false cs

/-- `utils._slugify`: lower-case; separators to `_`; drop non-word
characters; collapse `_` runs; strip outer `_`. -/
def _slugify (text : String) : String :=
  let t1 := text.data.map lowerChar
  let t2 := collapseRuns isSlugSep '_' false t1
  let t3 := t2.filter isWordChar
  let t4 := collapseRuns (fun c => c = '_') '_' false t3
  pyStripP (fun c => c = '_') t4.asString

/-- The `stem.strip().strip(",").strip()` cleanup used by two strategies. -/
def cleanStemOf (stem : String) : String :=
  pyStrip (pyStripP (fun c => c = ',') (pyStrip (stdSub stem)))

/-! ### classifier.py strategies -/

/-- Strategy 0: `_strategy_reference_sheet`. -/
def _strategy_reference_sheet (p : SvgPath) : Option ClassificationResult :=
  let stem := p.stem
  if refSearch stem then
    some { standard := (_extract_standard_from_name stem).getD "ISO 10628-2",
           category := "reference_sheet",
           subcategory := _slugify stem,
           confidence := "high",
           method := "reference_sheet_detection" }
  else none

/-- Python slice `s[n:]`. -/
def strDropN (s : String) (n : Nat) : String := (s.data.drop n).asString

/-- Strategy 1: `_strategy_autocad_folder`. -/
def _strategy_autocad_folder (p : SvgPath) : Option ClassificationResult :=
  match p.rel with
  | none => none
  | some relParts =>
    if relParts.headD "" ≠ "autocad-parser" ∨ relParts.length < 2 then none
    else
      match AUTOCAD_FOLDER_MAP.lookup ((relParts.drop 1).headD "") with
      | none => none
      | some (standard, category) =>
        let stem := p.stem
        match PIPING_STEM_PREFIXES.find? (fun pfx => pyStartsWith (pyLower stem) pfx) with
        | some pip => some { standard := "PIP", category := category,
                             subcategory := strDropN stem pip.length,
                             confidence := "high", method := "autocad_folder_map" }
        | none =>
          let prefixes := ["isa_" ++ category ++ "_", "iso_" ++ category ++ "_",
                           "isa_", "iso_", "pip_", "pipa_"]
          let subcategory :=
            match prefixes.find? (fun pfx => pyStartsWith (pyLower stem) pfx) with
            | some pfx => strDropN stem pfx.length
            | none => stem
          some { standard := standard, category := category,
                 subcategory := subcategory,
                 confidence := "high", method := "autocad_folder_map" }

/-- Strategy 2: `_strategy_filename_standard`. -/
def _strategy_filename_standard (p : SvgPath) : Option ClassificationResult :=
  let stem := p.stem
  match _extract_standard_from_name stem with
  | none => none
  | some standard =>
    let category :=
      match DOWNLOADED_FOLDER_MAP.lookup p.parentName with
      | some cat => cat
      | none =>
        let stemLow := pyLower stem
        match KEYWORD_HEURISTICS.find? (fun kc => pyContains stemLow kc.1) with
        | some kc => kc.2
        | none => "uncategorized"
    some { standard := standard, category := category,
           subcategory := _slugify (cleanStemOf stem),
           confidence := "high", method := "filename_standard_tag" }

/-- Strategy 3: `_strategy_downloaded_folder`. -/
def _strategy_downloaded_folder (p : SvgPath) : Option ClassificationResult :=
  match p.rel with
  | none => none
  | some relParts =>
    if relParts.headD "" ≠ "pid-symbols-generator" then none
    else if relParts.length < 2 ∨ (relParts.drop 1).headD "" ≠ "downloaded" then none
    else if relParts.length < 3 then none
    else
      match DOWNLOADED_FOLDER_MAP.lookup ((relParts.drop 2).headD "") with
      | none => none
      | some category =>
        some { standard := "ISO 10628-2", category := category,
               subcategory := _slugify (cleanStemOf p.stem),
               confidence := "high", method := "downloaded_folder_map" }

/-- Strategy 4: `_strategy_generated_prefix` (filename prefix lookup for
`pid-symbols-generator/generated`; the trailing word of the Python name is
abbreviated here). -/
def _strategy_generated_pfx (p : SvgPath) : Option ClassificationResult :=
  match p.rel with
  | none => none
  | some relParts =>
    if relParts.headD "" ≠ "pid-symbols-generator" then none
    else if relParts.length < 2 ∨ (relParts.drop 1).headD "" ≠ "generated" then none
    else
      let stem := p.stem
      match GENERATED_PREFIX_MAP.find? (fun e => pyStartsWith stem e.1) with
      | some (pfx, standard, category) =>
        some { standard := standard, category := category,
               subcategory := strDropN stem pfx.length,
               confidence := "high", method := "generated_prefix_map" }
      | none => none

/-- `sorted(KEYWORD_HEURISTICS, key=lambda x: -len(x[0]))`: a stable sort,
descending by keyword length.  `List.insertionSort` is stable, hence agrees
with Python's `sorted`. -/
def sortedKeywords : List (String × String) :=
  List.insertionSort (fun a b : String × String => b.1.length ≤ a.1.length) KEYWORD_HEURISTICS

/-- The standard detected from full path parts in strategy 5. -/
def keywordStandardOf (parts : List String) : String :=
  match parts.find? (fun part => pyStartsWith (pyLower part) "isa" ||
                                 pyStartsWith (pyLower part) "iso") with
  | some part => if pyStartsWith (pyLower part) "isa" then "ISA" else "ISO 10628-2"
  | none => "unknown"

/-- Strategy 5: `_strategy_keyword_heuristics`. -/
def _strategy_keyword_heuristics (p : SvgPath) : Option ClassificationResult :=
  let stemLow := pyLower p.stem
  match sortedKeywords.find? (fun kc => pyContains stemLow kc.1) with
  | some (_, category) =>
    some { standard := keywordStandardOf p.parts, category := category,
           subcategory := _slugify p.stem,
           confidence := "low", method := "keyword_heuristic" }
  | none => none

/-- The ordered strategy cascade of `classify`. -/
def classifyStrategies : List (SvgPath → Option ClassificationResult) :=
  [_strategy_reference_sheet, _strategy_autocad_folder, _strategy_filename_standard,
   _strategy_downloaded_folder, _strategy_generated_pfx, _strategy_keyword_heuristics]

/-- The terminal `unknown` result. -/
def unclassifiedResult (p : SvgPath) : ClassificationResult :=
  { standard := "unknown", category := "unknown",
    subcategory := _slugify p.stem, confidence := "none", method := "unclassified" }

/-- `classifier.classify`: first non-`none` strategy result, else unknown. -/
def classify (p : SvgPath) : ClassificationResult :=
  (classifyStrategies.findSome? (fun st => st p)).getD (unclassifiedResult p)

/-! ## A.4 snap-point detection (src/snap_points.py)

An XML document is abstracted as its root element plus the list of its
descendants in document order (`root.iter()` = root followed by
descendants).  `none` at the entry point models `ET.ParseError`.  A float
conversion outside a `try` block propagates as `Except.error`. -/

structure Elem where
  tag : String
  attrs : List (String × String)
  deriving DecidableEq, Repr

def Elem.get (e : Elem) (name : String) : Option String := e.attrs.lookup name

structure Doc where
  root : Elem
  descendants : List Elem
  deriving DecidableEq, Repr

def Doc.iter (d : Doc) : List Elem := d.root :: d.descendants

/-- `elem.tag.split("}")[-1] if "}" in elem.tag else elem.tag`. -/
def localName (tag : String) : String :=
  if tag.data.contains '}' then ((tag.data.reverse.takeWhile (· ≠ '}')).reverse).asString
  else tag

structure SnapPoint where
  id : String
  x : PyNum
  y : PyNum
  deriving DecidableEq, Repr

/-- `float(elem.get(name, 0))` inside a `try: ... except ValueError` block. -/
def getFloat? (e : Elem) (name : String) : Option PyNum :=
  match e.get name with
  | none => some 0
  | some s => pyFloat? s

/-- `float(elem.get(name, 0))` with no enclosing `try` (a malformed value
raises `ValueError`). -/
def getFloatE (e : Elem) (name : String) : Except Unit PyNum :=
  match getFloat? e name with
  | some v => .ok v
  | none => .error ()

def toFloatE (s : String) : Except Unit PyNum :=
  match pyFloat? s with
  | some v => .ok v
  | none => .error ()

/-- `str.split()` — split on whitespace runs, dropping empty pieces. -/
def splitWsAux (cur : List Char) : List Char → List (List Char)
  | [] => if cur.isEmpty then [] else [cur.reverse]
  | c :: cs =>
    if isSpaceChar c then
      if cur.isEmpty then splitWsAux [] cs else cur.reverse :: splitWsAux [] cs
    else splitWsAux (c :: cur) cs

def pySplitWs (s : String) : List String := (splitWsAux [] s.data).map List.asString

/-! ### the path mini-language -/

/-- `re.split(r'(?=[Mm])', s)`: split before each `M`/`m`. -/
def splitBeforeMAux (cur : List Char) : List Char → List (List Char)
  | [] => [cur.reverse]
  | c :: cs =>
    if c = 'M' ∨ c = 'm' then cur.reverse :: splitBeforeMAux [c] cs
    else splitBeforeMAux (c :: cur) cs

def splitBeforeM (cs : List Char) : List (List Char) := splitBeforeMAux [] cs

def isCmdHead (c : Char) : Bool :=
  c = 'M' ∨ c = 'L' ∨ c = 'H' ∨ c = 'V' ∨ c = 'm' ∨ c = 'l' ∨ c = 'h' ∨ c = 'v'

/-- The character class `[^MLHVZACSQTmlhvzacsqt]` of the command scanner. -/
def isArgStop (c : Char) : Bool :=
  "MLHVZACSQTmlhvzacsqt".data.contains c

/-- `re.findall(r'([MLHVmlhv])((?:[^MLHVZACSQTmlhvzacsqt])*)', s)`:
command letter plus following argument characters, left to right.  Fueled;
each step consumes at least one character. -/
def findCmdArgs : Nat → List Char → List (Char × List Char)
  | 0, _ => []
  | _ + 1, [] => []
  | fuel + 1, c :: cs =>
    if isCmdHead c then
      let args := cs.takeWhile (fun d => ¬ isArgStop d)
      (c, args) :: findCmdArgs fuel (cs.drop args.length)
    else findCmdArgs fuel cs

def cmdArgsOf (cs : List Char) : List (Char × List Char) :=
  findCmdArgs (cs.length + 1) cs

/-- Successive (not overlapping) coordinate pairs: `range(0, len-1, 2)`. -/
def numPairs : List PyNum → List (PyNum × PyNum)
  | a :: b :: t => (a, b) :: numPairs t
  | _ => []

def pairEqv (a b : PyNum × PyNum) : Bool := PyNum.eqv a.1 b.1 && PyNum.eqv a.2 b.2

/-- State while interpreting one subpath for `_path_open_endpoints`. -/
structure OpenEndState where
  cur : PyNum × PyNum
  start? : Option (PyNum × PyNum)
  end? : Option (PyNum × PyNum)

def openEndStep (st : OpenEndState) (ca : Char × List PyNum) : OpenEndState :=
  let (cmd, nums) := ca
  let isRel := cmd.isLower
  let cu := cmd.toUpper
  if cu = 'M' then
    if nums.length ≥ 2 then
      let nx := nums.headD 0
      let ny := (nums.drop 1).headD 0
      let c : PyNum × PyNum :=
        (if isRel then st.cur.1 + nx else nx, if isRel then st.cur.2 + ny else ny)
      { cur := c, start? := some (st.start?.getD c), end? := some c }
    else st
  else if cu = 'L' then
    (numPairs nums).foldl (fun s (nx, ny) =>
      let c : PyNum × PyNum :=
        (if isRel then s.cur.1 + nx else nx, if isRel then s.cur.2 + ny else ny)
      { s with cur := c, end? := some c }) st
  else if cu = 'H' then
    nums.foldl (fun s nx =>
      let c : PyNum × PyNum := (if isRel then s.cur.1 + nx else nx, s.cur.2)
      { s with cur := c, end? := some c }) st
  else if cu = 'V' then
    nums.foldl (fun s ny =>
      let c : PyNum × PyNum := (s.cur.1, if isRel then s.cur.2 + ny else ny)
      { s with cur := c, end? := some c }) st
  else st

/-- `_path_open_endpoints`: first/last coordinates of each non-closed
subpath containing a straight-line command. -/
def _path_open_endpoints (d : String) : List (PyNum × PyNum) :=
  (splitBeforeM (pyStrip d).data).foldl (fun acc sub =>
    let sub := (lcDropWhile isSpaceChar (lcDropWhile isSpaceChar sub).reverse).reverse
    match sub with
    | [] => acc
    | c0 :: _ =>
      if c0.toUpper ≠ 'M' then acc
      else if sub.any (fun c => c = 'Z' ∨ c = 'z') then acc
      else if ¬ sub.any (fun c => c = 'L' ∨ c = 'l' ∨ c = 'H' ∨ c = 'h' ∨ c = 'V' ∨ c = 'v') then acc
      else
        let st := (cmdArgsOf sub).foldl
          (fun s (cmd, args) => openEndStep s (cmd, findallNums args.asString))
          { cur := (0, 0), start? := none, end? := none }
        let acc := match st.start? with | some p => acc ++ [p] | none => acc
        match st.end?, st.start? with
        | some e, some s => if pairEqv e s then acc else acc ++ [e]
        | some e, none => acc ++ [e]
        | none, _ => acc) []

/-! ### straight segments and the on-segment test -/

abbrev Segment := (PyNum × PyNum) × (PyNum × PyNum)

/-- State while interpreting one path for `_straight_segments`. -/
structure SegState where
  cur : PyNum × PyNum
  segs : List Segment

def segStep (st : SegState) (ca : Char × List PyNum) : SegState :=
  let (cmd, nums) := ca
  let isRel := cmd.isLower
  let cu := cmd.toUpper
  if cu = 'M' then
    if nums.length ≥ 2 then
      let nx := nums.headD 0
      let ny := (nums.drop 1).headD 0
      { st with cur :=
          (if isRel then st.cur.1 + nx else nx, if isRel then st.cur.2 + ny else ny) }
    else st
  else if cu = 'L' then
    (numPairs nums).foldl (fun s (nx, ny) =>
      let nxt : PyNum × PyNum :=
        (if isRel then s.cur.1 + nx else nx, if isRel then s.cur.2 + ny else ny)
      { cur := nxt, segs := s.segs ++ [(s.cur, nxt)] }) st
  else if cu = 'H' then
    nums.foldl (fun s nx =>
      let nxt : PyNum × PyNum := (if isRel then s.cur.1 + nx else nx, s.cur.2)
      { cur := nxt, segs := s.segs ++ [(s.cur, nxt)] }) st
  else if cu = 'V' then
    nums.foldl (fun s ny =>
      let nxt : PyNum × PyNum := (s.cur.1, if isRel then s.cur.2 + ny else ny)
      { cur := nxt, segs := s.segs ++ [(s.cur, nxt)] }) st
  else st

/-- `_straight_segments`: segments from `<line>` elements and `M/L/H/V`
path commands. -/
def _straight_segments (doc : Doc) : List Segment :=
  doc.iter.foldl (fun acc e =>
    let locName := localName e.tag
    if locName = "line" then
      match getFloat? e "x1", getFloat? e "y1", getFloat? e "x2", getFloat? e "y2" with
      | some x1, some y1, some x2, some y2 => acc ++ [((x1, y1), (x2, y2))]
      | _, _, _, _ => acc
    else if locName = "path" then
      let st := (cmdArgsOf ((e.get "d").getD "").data).foldl
        (fun s (cmd, args) => segStep s (cmd, findallNums args.asString))
        { cur := (0, 0), segs := [] }
      acc ++ st.segs
    else acc) []

/-- `_on_segment` with tolerance 1.5.  The final distance comparison
`|cross| / sqrt(len_sq) <= tol` is stated in the equivalent square-free form
`cross^2 <= tol^2 * len_sq`, exact over the rationals. -/
def _on_segment (px py : PyNum) (s e : PyNum × PyNum) : Bool :=
  let tol : PyNum := ⟨3, 2⟩
  let (x1, y1) := s
  let (x2, y2) := e
  if ¬ (PyNum.le ((PyNum.pyMin x1 x2).sub tol) px ∧ PyNum.le px ((PyNum.pyMax x1 x2).add tol) ∧
        PyNum.le ((PyNum.pyMin y1 y2).sub tol) py ∧ PyNum.le py ((PyNum.pyMax y1 y2).add tol)) then
    false
  else
    let dx := x2 - x1
    let dy := y2 - y1
    let lenSq := dx * dx + dy * dy
    if PyNum.lt lenSq ⟨1, 10000000000⟩ then
      PyNum.le (px - x1).abs tol ∧ PyNum.le (py - y1).abs tol
    else
      let cross := dy * px - dx * py + x2 * y1 - y2 * x1
      PyNum.le (cross * cross) ((tol * tol) * lenSq)

/-! ### categories and endpoint labelling -/

def _VALVE_CATS : List String :=
  ["valve", "check_valve", "relief_valve", "control_valve", "regulator", "safety"]

def _OPEN_END_CATS : List String :=
  _VALVE_CATS ++ ["pump", "compressor", "pipe", "fitting", "connection", "piping", "line_type"]

def _BUBBLE_CATS : List String := ["instrument_bubble", "instrument", "annotation"]

def _ACTUATOR_CATS : List String := ["actuator", "fail_position"]

/-- Lexicographic order on integer pairs (Python tuple order). -/
def intPairLe (a b : Int × Int) : Prop :=
  a.1 < b.1 ∨ (a.1 = b.1 ∧ a.2 ≤ b.2)

instance : DecidableRel intPairLe := by
  intro a b; unfold intPairLe; infer_instance

/-- `enumerate(pts, i0)` with labels `p{i}` (ordinal overflow ports). -/
def enumLabel : Nat → List (Int × Int) → List SnapPoint
  | _, [] => []
  | i, p :: t => ⟨"p" ++ toString i, PyNum.ofInt p.1, PyNum.ofInt p.2⟩ :: enumLabel (i + 1) t

/-- `_label_floating`: assign semantic ids to the floating endpoints. -/
def _label_floating (floating : List (Int × Int)) (category : String) : List SnapPoint :=
  if floating.isEmpty then []
  else if (_VALVE_CATS ++ _OPEN_END_CATS).contains category then
    let byX := List.insertionSort (fun a b : Int × Int => a.1 ≤ b.1) floating
    let byY := List.insertionSort (fun a b : Int × Int => a.2 ≤ b.2) floating
    let xSpan := (byX.getLastD (0, 0)).1 - (byX.headD (0, 0)).1
    let ySpan := (byY.getLastD (0, 0)).2 - (byY.headD (0, 0)).2
    let horizontal := ySpan ≤ xSpan
    let lo := if horizontal then byX.headD (0, 0) else byY.headD (0, 0)
    let hi := if horizontal then byX.getLastD (0, 0) else byY.getLastD (0, 0)
    let base : List SnapPoint :=
      [⟨"in", PyNum.ofInt lo.1, PyNum.ofInt lo.2⟩, ⟨"out", PyNum.ofInt hi.1, PyNum.ofInt hi.2⟩]
    let extras := floating.filter (fun p => p ≠ lo ∧ p ≠ hi)
    base ++ enumLabel 1 (List.insertionSort intPairLe extras)
  else
    let pts := List.insertionSort intPairLe floating
    match pts with
    | [(x0, y0), (x1, y1)] =>
      if |y1 - y0| ≤ |x1 - x0| then
        [⟨"in", PyNum.ofInt x0, PyNum.ofInt y0⟩, ⟨"out", PyNum.ofInt x1, PyNum.ofInt y1⟩]
      else
        [⟨"signal", PyNum.ofInt x0, PyNum.ofInt y0⟩, ⟨"process", PyNum.ofInt x1, PyNum.ofInt y1⟩]
    | _ => enumLabel 1 pts

/-! ### the four-strategy detector -/

def PORT_KEYWORDS : List String :=
  ["port", "conn", "inlet", "outlet", "signal", "terminal", "snap"]

/-- One step of strategy 1 (semantically labelled elements); float
conversions here are not guarded by any `try`. -/
def strategy1Step (acc : List SnapPoint) (e : Elem) : Except Unit (List SnapPoint) := do
  let eid := pyLower ((e.get "id").getD "")
  let ecl := pyLower ((e.get "class").getD "")
  if PORT_KEYWORDS.any (fun kw => pyContains eid kw || pyContains ecl kw) then
    let locName := localName e.tag
    let xy? ←
      if locName = "circle" ∨ locName = "ellipse" then do
        let x ← getFloatE e "cx"
        let y ← getFloatE e "cy"
        pure (some (x, y))
      else if locName = "rect" then do
        let x ← getFloatE e "x"
        let w ← getFloatE e "width"
        let y ← getFloatE e "y"
        let h ← getFloatE e "height"
        pure (some (x + w / 2, y + h / 2))
      else if locName = "line" then do
        let x1 ← getFloatE e "x1"
        let x2 ← getFloatE e "x2"
        let y1 ← getFloatE e "y1"
        let y2 ← getFloatE e "y2"
        pure (some ((x1 + x2) / 2, (y1 + y2) / 2))
      else
        pure none
    match xy? with
    | some (x, y) =>
      pure (acc ++ [⟨if eid = "" then "p" ++ toString (acc.length + 1) else eid,
                    x.round2, y.round2⟩])
    | none => pure acc
  else
    pure acc

/-- Strategy 1 over the whole document. -/
def strategy1Pts (doc : Doc) : Except Unit (List SnapPoint) :=
  doc.iter.foldlM strategy1Step []

/-- All candidate endpoints for the open-end strategy. -/
def allOpenEps (doc : Doc) : List (PyNum × PyNum) :=
  doc.iter.foldl (fun acc e =>
    let locName := localName e.tag
    if locName = "line" then
      match getFloat? e "x1", getFloat? e "y1", getFloat? e "x2", getFloat? e "y2" with
      | some x1, some y1, some x2, some y2 => acc ++ [(x1, y1), (x2, y2)]
      | _, _, _, _ => acc
    else if locName = "path" then
      acc ++ _path_open_endpoints ((e.get "d").getD "")
    else acc) []

/-- The insertion-ordered multiplicity count of rounded endpoints
(a Python `dict` keyed by `(round(x), round(y))`). -/
def bumpCount (l : List ((Int × Int) × Nat)) (k : Int × Int) : List ((Int × Int) × Nat) :=
  match l with
  | [] => [(k, 1)]
  | (k', n) :: t => if k' = k then (k', n + 1) :: t else (k', n) :: bumpCount t k

def buildCount (eps : List (PyNum × PyNum)) : List ((Int × Int) × Nat) :=
  eps.foldl (fun acc p => bumpCount acc (p.1.pyRound, p.2.pyRound)) []

/-- The open-end filter: multiplicity exactly 1 and not on the interior of
any other segment (segments with an endpoint rounding to the candidate are
skipped). -/
def isFloatingPt (segs : List Segment) (pt : Int × Int) : Bool :=
  ¬ segs.any (fun se =>
      ((se.1.1.pyRound, se.1.2.pyRound) ≠ pt ∧ (se.2.1.pyRound, se.2.2.pyRound) ≠ pt) ∧
      _on_segment (PyNum.ofInt pt.1) (PyNum.ofInt pt.2) se.1 se.2)

/-- The floating endpoints of the open-end strategy. -/
def floatingOf (doc : Doc) : List (Int × Int) :=
  let segs := _straight_segments doc
  ((buildCount (allOpenEps doc)).filter
    (fun kn => kn.2 = 1 ∧ isFloatingPt segs kn.1)).map (·.1)

/-- Bubbles `(rx, ry, cx, cy)` collected for strategy 3; conversions are
guarded by `try`. -/
def bubblesOf (doc : Doc) : List (PyNum × PyNum × PyNum × PyNum) :=
  doc.iter.foldl (fun acc e =>
    let locName := localName e.tag
    if locName = "circle" then
      match getFloat? e "r", getFloat? e "cx", getFloat? e "cy" with
      | some r, some cx, some cy => acc ++ [(r, r, cx, cy)]
      | _, _, _ => acc
    else if locName = "ellipse" then
      match getFloat? e "rx", getFloat? e "ry", getFloat? e "cx", getFloat? e "cy" with
      | some rx, some ry, some cx, some cy => acc ++ [(rx, ry, cx, cy)]
      | _, _, _, _ => acc
    else acc) []

/-- Python `max(bubbles, key=lambda b: b[0] * b[1])`: the first element with
the (strictly) largest key. -/
def maxByArea (b0 : PyNum × PyNum × PyNum × PyNum) (bs : List (PyNum × PyNum × PyNum × PyNum)) :
    PyNum × PyNum × PyNum × PyNum :=
  bs.foldl (fun best b =>
    if PyNum.lt (best.1 * best.2.1) (b.1 * b.2.1) then b else best) b0

/-- Parsed `viewBox` numbers, shared by strategy 4; a malformed `viewBox`
attribute raises `ValueError`. -/
def viewBoxOf (doc : Doc) : Except Unit (List PyNum) :=
  (pySplitWs ((doc.root.get "viewBox").getD "")).mapM toFloatE

/-- The first four `viewBox` numbers, when present. -/
def vbTupleOf (vbParts : List PyNum) : Option (PyNum × PyNum × PyNum × PyNum) :=
  if vbParts.length ≥ 4 then
    some (vbParts.headD 0, (vbParts.drop 1).headD 0,
          (vbParts.drop 2).headD 0, (vbParts.drop 3).headD 0)
  else none

/-- Whether a point lies (within 1 unit) on the viewBox boundary. -/
def onVb (vb? : Option (PyNum × PyNum × PyNum × PyNum)) (x y : PyNum) : Bool :=
  match vb? with
  | none => false
  | some (x0, y0, w, h) =>
    PyNum.lt (x - x0).abs 1 ∨ PyNum.lt (x - (x0 + w)).abs 1 ∨
    PyNum.lt (y - y0).abs 1 ∨ PyNum.lt (y - (y0 + h)).abs 1

/-- The candidate points of the bounding-box fallback: segment endpoints
(excluding segments entirely on the viewBox boundary) plus circle and
ellipse extremes. -/
def bboxPoints (doc : Doc) (vb? : Option (PyNum × PyNum × PyNum × PyNum)) :
    List (PyNum × PyNum) :=
  let segs := _straight_segments doc
  let fromSegs := (segs.filter
    (fun se => ¬ (onVb vb? se.1.1 se.1.2 ∧ onVb vb? se.2.1 se.2.2))).foldl
    (fun acc se => acc ++ [se.1, se.2]) []
  doc.iter.foldl (fun acc e =>
    let locName := localName e.tag
    if locName = "circle" then
      match getFloat? e "cx", getFloat? e "cy", getFloat? e "r" with
      | some cx, some cy, some r =>
        acc ++ [(cx - r, cy), (cx + r, cy), (cx, cy - r), (cx, cy + r)]
      | _, _, _ => acc
    else if locName = "ellipse" then
      match getFloat? e "cx", getFloat? e "cy", getFloat? e "rx", getFloat? e "ry" with
      | some cx, some cy, some rx, some ry =>
        acc ++ [(cx - rx, cy), (cx + rx, cy), (cx, cy - ry), (cx, cy + ry)]
      | _, _, _, _ => acc
    else acc) fromSegs

def pyMinList (x : PyNum) (xs : List PyNum) : PyNum :=
  xs.foldl (fun m v => if PyNum.lt v m then v else m) x

def pyMaxList (x : PyNum) (xs : List PyNum) : PyNum :=
  xs.foldl (fun m v => if PyNum.lt m v then v else m) x

/-- `detect_snap_points`.  The `Option` input models the XML parse
(`none` = `ET.ParseError`, caught and turned into `[]`); the `Except`
result models an uncaught `ValueError` escaping to the caller. -/
def detect_snap_points (svg? : Option Doc) (category : String) :
    Except Unit (List SnapPoint) := do
  match svg? with
  | none => return []
  | some doc =>
    let vbParts ← viewBoxOf doc
    let vb? := vbTupleOf vbParts
    let idPts ← strategy1Pts doc
    if ¬ idPts.isEmpty then
      return idPts
    if _OPEN_END_CATS.contains category then
      let floating := floatingOf doc
      if ¬ floating.isEmpty then
        return _label_floating floating category
    if _BUBBLE_CATS.contains category then
      let bubbles := bubblesOf doc
      match bubbles with
      | b0 :: rest =>
        let (rx, ry, ccx, ccy) := maxByArea b0 rest
        return [⟨"north", ccx.round2, (ccy - ry).round2⟩,
                ⟨"south", ccx.round2, (ccy + ry).round2⟩,
                ⟨"east",  (ccx + rx).round2, ccy.round2⟩,
                ⟨"west",  (ccx - rx).round2, ccy.round2⟩]
      | [] => pure ()
    let allPts := bboxPoints doc vb?
    match allPts with
    | [] => return []
    | p0 :: rest =>
      let xMin := pyMinList p0.1 (rest.map (·.1))
      let xMax := pyMaxList p0.1 (rest.map (·.1))
      let yMin := pyMinList p0.2 (rest.map (·.2))
      let yMax := pyMaxList p0.2 (rest.map (·.2))
      let cxG := (xMin + xMax) / 2
      let cyG := (yMin + yMax) / 2
      if _VALVE_CATS.contains category then
        return [⟨"in",  xMin.round2, cyG.round2⟩, ⟨"out", xMax.round2, cyG.round2⟩]
      else if _ACTUATOR_CATS.contains category then
        return [⟨"signal",  cxG.round2, yMin.round2⟩, ⟨"process", cxG.round2, yMax.round2⟩]
      else
        return [⟨"north", cxG.round2, yMin.round2⟩, ⟨"south", cxG.round2, yMax.round2⟩,
                ⟨"east",  xMax.round2, cyG.round2⟩, ⟨"west",  xMin.round2, cyG.round2⟩]

/-! ## A.5 content identity (src/utils.py `_canonicalize_svg_ids`, `_svg_sha256`)

The regular expressions are compiled to scanners over the character list:
`\bid="([^"]+)"` (word boundary before `id`), `url\(#([^)]+)\)` and
`(?:xlink:)?href="#([^"]+)"`.  `hashlib.sha256` is external code; digests
are abstracted by a digest-function parameter. -/

/-- Try `id="([^"]+)"` at the current position (the `\b` boundary is
checked by the caller); on success return the captured value and the rest
after the closing quote. -/
def matchIdAt (cs : List Char) : Option (List Char × List Char) :=
  if lcStartsWith cs ['i', 'd', '=', '"'] then
    let after := cs.drop 4
    let v := after.takeWhile (· ≠ '"')
    if v.isEmpty then none
    else
      match after.drop v.length with
      | '"' :: rest => some (v, rest)
      | _ => none
  else none

/-- Boundary-respecting scan collecting every `\bid="..."` value in
document order.  `prev` is the character before the current position. -/
def idScanCollect : Nat → Option Char → List Char → List (List Char)
  | 0, _, _ => []
  | _ + 1, _, [] => []
  | fuel + 1, prev, c :: cs =>
    if (match prev with | none => true | some p => ¬ isWordChar p) then
      match matchIdAt (c :: cs) with
      | some (v, rest) => v :: idScanCollect fuel (some '"') rest
      | none => idScanCollect fuel (some c) cs
    else idScanCollect fuel (some c) cs

/-- `re.sub` for `\bid="([^"]+)"`, replacing the captured value by
`repl value`. -/
def idScanSub (repl : String → String) : Nat → Option Char → List Char → List Char
  | 0, _, cs => cs
  | _ + 1, _, [] => []
  | fuel + 1, prev, c :: cs =>
    if (match prev with | none => true | some p => ¬ isWordChar p) then
      match matchIdAt (c :: cs) with
      | some (v, rest) =>
        ['i', 'd', '=', '"'] ++ (repl v.asString).data ++ ['"'] ++
          idScanSub repl fuel (some '"') rest
      | none => c :: idScanSub repl fuel (some c) cs
    else c :: idScanSub repl fuel (some c) cs

/-- First-seen de-duplication (`dict.fromkeys`). -/
def dedupFirstAux (seen : List String) : List String → List String
  | [] => []
  | x :: xs =>
    if seen.contains x then dedupFirstAux seen xs
    else x :: dedupFirstAux (x :: seen) xs

def dedupFirst (l : List String) : List String := dedupFirstAux [] l

/-- All id values of a document, in first-seen order. -/
def collectIds (content : String) : List String :=
  (dedupFirst (((idScanCollect (content.data.length + 1) none content.data)).map
    List.asString))

/-- `{old: f"_cid{i}" ...}` with `.get(old, old)` fallback semantics. -/
def cidMapping (ids : List String) (old : String) : String :=
  match ids.indexOf? old with
  | some i => "_cid" ++ toString i
  | none => old

/-- Try `url\(#([^)]+)\)` at the current position. -/
def matchUrlAt (cs : List Char) : Option (List Char × List Char) :=
  if lcStartsWith cs ['u', 'r', 'l', '(', '#'] then
    let after := cs.drop 5
    let v := after.takeWhile (· ≠ ')')
    if v.isEmpty then none
    else
      match after.drop v.length with
      | ')' :: rest => some (v, rest)
      | _ => none
  else none

/-- Try `(?:xlink:)?href="#([^"]+)"` at the current position; returns the
matched opening text (through the quote), the captured value and the rest. -/
def matchHrefAt (cs : List Char) : Option (List Char × List Char × List Char) :=
  let tryAt (pfx : List Char) : Option (List Char × List Char × List Char) :=
    if lcStartsWith cs (pfx ++ ['#']) then
      let after := cs.drop (pfx.length + 1)
      let v := after.takeWhile (· ≠ '"')
      if v.isEmpty then none
      else
        match after.drop v.length with
        | '"' :: rest => some (pfx, v, rest)
        | _ => none
    else none
  match tryAt "xlink:href=\"".data with
  | some r => some r
  | none => tryAt "href=\"".data

/-- `ref_re.sub` over both reference forms, with `mapping.get(old, old)`. -/
def refScanSub (map : String → String) : Nat → List Char → List Char
  | 0, cs => cs
  | _ + 1, [] => []
  | fuel + 1, c :: cs =>
    match matchUrlAt (c :: cs) with
    | some (v, rest) =>
      ['u', 'r', 'l', '(', '#'] ++ (map v.asString).data ++ [')'] ++ refScanSub map fuel rest
    | none =>
      match matchHrefAt (c :: cs) with
      | some (pfx, v, rest) =>
        pfx ++ ['#'] ++ (map v.asString).data ++ ['"'] ++ refScanSub map fuel rest
      | none => c :: refScanSub map fuel cs

/-- `utils._canonicalize_svg_ids`: rewrite id definitions and references to
stable sequential `_cidN` names, in first-seen document order. -/
def _canonicalize_svg_ids (content : String) : String :=
  let ids := collectIds content
  if ids.isEmpty then content
  else
    let m := cidMapping ids
    let c1 := (idScanSub m (content.data.length + 1) none content.data).asString
    (refScanSub m (c1.data.length + 1) c1.data).asString

/-- `utils._svg_sha256` (`src/utils.py`): digest of the canonicalized
document; the SHA-256 digest itself is external and abstracted. -/
def _svg_sha256 (sha256 : String → String) (content : String) : String :=
  sha256 (_canonicalize_svg_ids content)

/-- `main._svg_sha256` (`main.py`): digest of the raw content, with no
canonicalization step. -/
def mainSvgSha256 (sha256 : String → String) (content : String) : String :=
  sha256 content

/-! ## A.6 registry deduplication (main.py, main loop lines 1776-1830)

Only the fields inspected by `_metadata_quality` and by the dedup decision
are modelled. -/

structure Meta where
  id : String
  contentHash : String
  snapPoints : List SnapPoint
  notes : String
  completed : Bool
  confidence : String
  deriving DecidableEq, Repr

/-- `_metadata_quality` (utils.py / main.py). -/
def _metadata_quality (m : Meta) : Nat :=
  m.snapPoints.length +
  (if m.notes ≠ "" then 2 else 0) +
  (if m.completed then 5 else 0) +
  (if m.confidence = "high" then 3 else if m.confidence = "low" then 1 else 0)

structure RegState where
  registry : List Meta
  hashMap : List (String × String)
  hashes : List (String × List String)
  duplicates : Nat
  deriving DecidableEq, Repr

def RegState.empty : RegState := ⟨[], [], [], 0⟩

/-- Python `dict` assignment `d[k] = v` on an insertion-ordered
association list. -/
def assocSet (k : String) (v : String) : List (String × String) → List (String × String)
  | [] => [(k, v)]
  | (k', v') :: t => if k' = k then (k, v) :: t else (k', v') :: assocSet k v t

/-- `hashes.setdefault(k, []).append(v)`. -/
def hashesAppend (k v : String) : List (String × List String) → List (String × List String)
  | [] => [(k, [v])]
  | (k', vs) :: t => if k' = k then (k', vs ++ [v]) :: t else (k', vs) :: hashesAppend k v t

/-- `hashes.setdefault(k, vs)` (no effect when the key is present). -/
def hashesSetdefault (l : List (String × List String)) (k : String) (vs : List String) :
    List (String × List String) :=
  if (l.lookup k).isSome then l else l ++ [(k, vs)]

/-- One trip of the main loop through the dedup-and-register block for a
freshly built metadata record (content hash already attached). -/
def processRecord (st : RegState) (m : Meta) : RegState :=
  match st.hashMap.lookup m.contentHash with
  | some existingId =>
    match st.registry.find? (fun r => r.id = existingId) with
    | some em =>
      if _metadata_quality m ≤ _metadata_quality em then
        { st with hashes := hashesAppend m.contentHash m.id st.hashes,
                  duplicates := st.duplicates + 1 }
      else
        { registry := st.registry.erase em ++ [m],
          hashMap := assocSet m.contentHash m.id st.hashMap,
          hashes := hashesSetdefault (hashesAppend m.contentHash existingId st.hashes)
                      m.contentHash [m.id],
          duplicates := st.duplicates }
    | none =>
      { registry := st.registry ++ [m],
        hashMap := assocSet m.contentHash m.id st.hashMap,
        hashes := hashesSetdefault st.hashes m.contentHash [m.id],
        duplicates := st.duplicates }
  | none =>
    { registry := st.registry ++ [m],
      hashMap := assocSet m.contentHash m.id st.hashMap,
      hashes := hashesSetdefault st.hashes m.contentHash [m.id],
      duplicates := st.duplicates }

/-! ## A.7 stem resolution (metadata.py / main.py `resolve_stem`)

`used` is the per-directory in-memory reservation set; `disk` is the set of
stems whose `.svg` file already exists in the target directory.  The
`while` loop tries `base`, `base_2`, `base_3`, ... and returns the first
free candidate; it is modelled with fuel `card(used ∪ disk) + 1`, which is
proved sufficient below (`resolve_stem_not_mem`). -/

def stemCandidate (base : String) : Nat → String
  | 0 => base
  | k + 1 => base ++ "_" ++ Nat.repr (k + 2)

def resolveStemAux (base : String) (avoid : Finset String) : Nat → Nat → String
  | 0, k => stemCandidate base k
  | fuel + 1, k =>
    if stemCandidate base k ∈ avoid then resolveStemAux base avoid fuel (k + 1)
    else stemCandidate base k

/-- `resolve_stem`: first free stem, which is also added to `used`. -/
def resolve_stem (base : String) (disk used : Finset String) : String × Finset String :=
  let avoid := used ∪ disk
  let s := resolveStemAux base avoid (avoid.card + 1) 0
  (s, insert s used)

/-- A run of `resolve_stem` calls sharing one reservation set. -/
def processStems : List String → Finset String → Finset String → List String
  | [], _, _ => []
  | b :: bs, disk, used =>
    let r := resolve_stem b disk used
    r.1 :: processStems bs disk r.2

/-! ## A.8 statement-support definitions -/

/-- Whether an element's id or class contains a port keyword (the strategy-1
match condition). -/
def elemMatchesPort (e : Elem) : Bool :=
  PORT_KEYWORDS.any (fun kw =>
    pyContains (pyLower ((e.get "id").getD "")) kw ||
    pyContains (pyLower ((e.get "class").getD "")) kw)

/-- The geometric center strategy 1 would assign to an element, by tag;
`none` for tags it ignores (notably `path` and container elements). -/
def elemCenter? (e : Elem) : Option (PyNum × PyNum) :=
  let locName := localName e.tag
  if locName = "circle" ∨ locName = "ellipse" then do
    let x ← getFloat? e "cx"
    let y ← getFloat? e "cy"
    pure (x, y)
  else if locName = "rect" then do
    let x ← getFloat? e "x"
    let w ← getFloat? e "width"
    let y ← getFloat? e "y"
    let h ← getFloat? e "height"
    pure (x + w / 2, y + h / 2)
  else if locName = "line" then do
    let x1 ← getFloat? e "x1"
    let x2 ← getFloat? e "x2"
    let y1 ← getFloat? e "y1"
    let y2 ← getFloat? e "y2"
    pure ((x1 + x2) / 2, (y1 + y2) / 2)
  else none

/-- How many raw open-end candidate endpoints round to the integer pair
`k`. -/
def roundedKeyCount (doc : Doc) (k : Int × Int) : Nat :=
  ((allOpenEps doc).filter (fun p => (p.1.pyRound, p.2.pyRound) = k)).length

/-- Reference decimal rendering: the digits of `n`, most significant
first.  Agrees with `Nat.repr` (proved below) and is convenient for the
injectivity argument behind stem-collision freedom. -/
def specRepr (n : Nat) : List Char :=
  if n < 10 then [Nat.digitChar n]
  else specRepr (n / 10) ++ [Nat.digitChar (n % 10)]
  termination_by n
  decreasing_by exact Nat.div_lt_self (by omega) (by omega)

/-! ## A.9 concrete fixtures used by witnesses and counterexamples -/

def exRootSvg : Elem := ⟨"svg", []⟩

/-- A path-only "valve": `M0 10 L40 10`. -/
def exDocValve : Doc := ⟨exRootSvg, [⟨"path", [("d", "M0 10 L40 10")]⟩]⟩

/-- A document whose only port-keyword element is a `path`. -/
def exDocPort : Doc := ⟨exRootSvg, [⟨"path", [("id", "port1"), ("d", "M0 0 L10 0")]⟩]⟩

/-- A document with a keyword-matched circle and a keyword-matched path. -/
def exDocMarker : Doc :=
  ⟨exRootSvg, [⟨"circle", [("id", "port-a"), ("cx", "5"), ("cy", "7"), ("r", "2")]⟩,
               ⟨"path", [("id", "conn1"), ("d", "M0 0 L10 0")]⟩]⟩

/-- A well-formed document with a non-numeric `viewBox`. -/
def exDocBadVb : Doc := ⟨⟨"svg", [("viewBox", "a b c d")]⟩, []⟩

/-- Two endpoints that round to the same integer pair. -/
def exDocMerge : Doc :=
  ⟨exRootSvg, [⟨"path", [("d", "M0 0 L10 0")]⟩, ⟨"path", [("d", "M0.4 0.3 L10 5")]⟩]⟩

/-- Quality-3 metadata record. -/
def exM3 : Meta := ⟨"id3", "h", [⟨"a", 0, 0⟩, ⟨"b", 0, 0⟩, ⟨"c", 0, 0⟩], "", false, "none"⟩

/-- Quality-7 metadata record for the same content hash. -/
def exM7 : Meta :=
  ⟨"id7", "h", [⟨"a", 0, 0⟩, ⟨"b", 0, 0⟩, ⟨"c", 0, 0⟩, ⟨"d", 0, 0⟩], "", false, "high"⟩

/-- A reference-sheet file sitting in an arbitrary folder. -/
def exRefPath : SvgPath := ⟨["input", "somewhere", "Symbols Sheet 1.svg"], none⟩

/-- A file on which every strategy declines. -/
def exPlainPath : SvgPath := ⟨["a", "b.svg"], none⟩

/-- A stem containing both `discrete instrument` and `instrument`. -/
def exKwPath : SvgPath := ⟨["a", "discrete instrument x.svg"], none⟩

/-- Two SVG documents identical except for a systematic id renaming. -/
def exSvgA : String :=
  "<svg><g id=\"a9x\"/><use xlink:href=\"#a9x\"/><rect fill=\"url(#a9x)\" width=\"5\"/></svg>"

def exSvgB : String :=
  "<svg><g id=\"zq\"/><use xlink:href=\"#zq\"/><rect fill=\"url(#zq)\" width=\"5\"/></svg>"

/-! # Part B: theorems -/

/-! ## B.1 registry deduplication (C2, C7) -/

/-- C2 (claim): for two candidate records with the same content hash, the
newcomer replaces the incumbent live record iff its quality score is
strictly greater; with distinct scores, either feeding order leaves exactly
the higher-scoring record live, and a lower-or-equal-quality newcomer is
dropped from the live registry. -/
theorem C2_dedup_monotonic (m1 m2 : Meta)
    (hh : m1.contentHash = m2.contentHash) (hne : m1 ≠ m2) :
    (_metadata_quality m1 < _metadata_quality m2 →
      (processRecord (processRecord RegState.empty m1) m2).registry = [m2] ∧
      (processRecord (processRecord RegState.empty m2) m1).registry = [m2]) ∧
    (_metadata_quality m2 ≤ _metadata_quality m1 →
      (processRecord (processRecord RegState.empty m1) m2).registry = [m1] ∧
      m2 ∉ (processRecord (processRecord RegState.empty m1) m2).registry) := by
  have h1 : processRecord RegState.empty m1 =
      { registry := [m1], hashMap := [(m1.contentHash, m1.id)],
        hashes := [(m1.contentHash, [m1.id])], duplicates := 0 } := by
    simp [processRecord, RegState.empty, assocSet, hashesSetdefault, List.lookup]
  have h2 : processRecord RegState.empty m2 =
      { registry := [m2], hashMap := [(m2.contentHash, m2.id)],
        hashes := [(m2.contentHash, [m2.id])], duplicates := 0 } := by
    simp [processRecord, RegState.empty, assocSet, hashesSetdefault, List.lookup]
  refine ⟨fun hq => ⟨?_, ?_⟩, fun hq => ?_⟩
  · rw [h1]
    simp only [processRecord, List.lookup, hh, beq_self_eq_true, List.find?,
      decide_eq_true_eq, decide_True, List.erase_cons_head]
    rw [if_neg (by omega)]
    simp
  · rw [h2]
    simp only [processRecord, List.lookup, hh, beq_self_eq_true, List.find?,
      decide_eq_true_eq, decide_True, List.erase_cons_head]
    rw [if_pos (Nat.le_of_lt hq)]
  · rw [h1]
    simp only [processRecord, List.lookup, hh, beq_self_eq_true, List.find?,
      decide_eq_true_eq, decide_True, List.erase_cons_head]
    rw [if_pos hq]
    refine ⟨rfl, ?_⟩
    simp only [List.mem_singleton]
    exact fun h => hne (h ▸ rfl)

/-- Witness for C2 at quality scores 3 and 7: the score-7 record survives in
either feeding order. -/
theorem C2_dedup_monotonic_witness :
    exM3.contentHash = exM7.contentHash ∧ exM3 ≠ exM7 ∧
    _metadata_quality exM3 = 3 ∧ _metadata_quality exM7 = 7 ∧
    (processRecord (processRecord RegState.empty exM3) exM7).registry = [exM7] ∧
    (processRecord (processRecord RegState.empty exM7) exM3).registry = [exM7] := by
  refine ⟨by decide, by decide, by decide, by decide, ?_, ?_⟩
  · exact ((C2_dedup_monotonic exM3 exM7 (by decide) (by decide)).1 (by decide)).1
  · exact ((C2_dedup_monotonic exM3 exM7 (by decide) (by decide)).1 (by decide)).2

/-- C7 (code bug): after a higher-quality record replaces the incumbent for
hash `"h"`, the `hashes` provenance entry is `["id3", "id3"]` — the replaced
incumbent's id is recorded twice and the surviving record's id `"id7"` is
missing, contradicting the specified invariant that the entry holds every id
ever observed for the hash. -/
theorem C7_hashes_provenance_bug :
    (processRecord (processRecord RegState.empty exM3) exM7).hashes =
      [("h", ["id3", "id3"])] ∧
    (processRecord (processRecord RegState.empty exM3) exM7).registry = [exM7] ∧
    exM7.id ∉ ((((processRecord (processRecord RegState.empty exM3) exM7).hashes).lookup
      exM7.contentHash).getD []) := by decide

/-! ## B.2 classification cascade (C1, C6) -/

/-- C1 (claim): `classify` evaluates its six strategies in the fixed
priority order (reference sheet, autocad folder, filename standard tag,
downloaded folder, generated prefix, keyword heuristics) and returns the
first result produced; a stem matching the reference-sheet pattern yields
category `reference_sheet` with confidence `high` regardless of location;
when every strategy declines the result is
`{standard: unknown, category: unknown, confidence: none, method: unclassified}`. -/
theorem C1_classify_cascade :
    (∀ p r, _strategy_reference_sheet p = some r → classify p = r) ∧
    (∀ p r, _strategy_reference_sheet p = none →
      _strategy_autocad_folder p = some r → classify p = r) ∧
    (∀ p r, _strategy_reference_sheet p = none → _strategy_autocad_folder p = none →
      _strategy_filename_standard p = some r → classify p = r) ∧
    (∀ p r, _strategy_reference_sheet p = none → _strategy_autocad_folder p = none →
      _strategy_filename_standard p = none →
      _strategy_downloaded_folder p = some r → classify p = r) ∧
    (∀ p r, _strategy_reference_sheet p = none → _strategy_autocad_folder p = none →
      _strategy_filename_standard p = none → _strategy_downloaded_folder p = none →
      _strategy_generated_pfx p = some r → classify p = r) ∧
    (∀ p r, _strategy_reference_sheet p = none → _strategy_autocad_folder p = none →
      _strategy_filename_standard p = none → _strategy_downloaded_folder p = none →
      _strategy_generated_pfx p = none →
      _strategy_keyword_heuristics p = some r → classify p = r) ∧
    (∀ p, refSearch p.stem = true →
      classify p = { standard := (_extract_standard_from_name p.stem).getD "ISO 10628-2",
                     category := "reference_sheet", subcategory := _slugify p.stem,
                     confidence := "high", method := "reference_sheet_detection" }) ∧
    (∀ p, _strategy_reference_sheet p = none → _strategy_autocad_folder p = none →
      _strategy_filename_standard p = none → _strategy_downloaded_folder p = none →
      _strategy_generated_pfx p = none → _strategy_keyword_heuristics p = none →
      classify p = unclassifiedResult p) := by
  refine ⟨?_, ?_, ?_, ?_, ?_, ?_, ?_, ?_⟩
  · intro p r h
    simp [classify, classifyStrategies, List.findSome?, h]
  · intro p r h0 h1
    simp [classify, classifyStrategies, List.findSome?, h0, h1]
  · intro p r h0 h1 h2
    simp [classify, classifyStrategies, List.findSome?, h0, h1, h2]
  · intro p r h0 h1 h2 h3
    simp [classify, classifyStrategies, List.findSome?, h0, h1, h2, h3]
  · intro p r h0 h1 h2 h3 h4
    simp [classify, classifyStrategies, List.findSome?, h0, h1, h2, h3, h4]
  · intro p r h0 h1 h2 h3 h4 h5
    simp [classify, classifyStrategies, List.findSome?, h0, h1, h2, h3, h4, h5]
  · intro p h
    have h0 : _strategy_reference_sheet p =
        some { standard := (_extract_standard_from_name p.stem).getD "ISO 10628-2",
               category := "reference_sheet", subcategory := _slugify p.stem,
               confidence := "high", method := "reference_sheet_detection" } := by
      simp [_strategy_reference_sheet, h]
    simp [classify, classifyStrategies, List.findSome?, h0]
  · intro p h0 h1 h2 h3 h4 h5
    simp [classify, classifyStrategies, List.findSome?, h0, h1, h2, h3, h4, h5]

/-- Witness for C1: a reference-sheet name in an arbitrary folder, and a
file on which all six strategies decline. -/
theorem C1_classify_cascade_witness :
    refSearch exRefPath.stem = true ∧
    classify exRefPath =
      { standard := (_extract_standard_from_name exRefPath.stem).getD "ISO 10628-2",
        category := "reference_sheet", subcategory := _slugify exRefPath.stem,
        confidence := "high", method := "reference_sheet_detection" } ∧
    classify exPlainPath = unclassifiedResult exPlainPath :=
  ⟨by decide, C1_classify_cascade.2.2.2.2.2.2.1 exRefPath (by decide),
   C1_classify_cascade.2.2.2.2.2.2.2 exPlainPath rfl rfl rfl rfl rfl rfl⟩

/-- C6 (claim): keyword heuristics test keywords longest-first, so a stem
containing both "discrete instrument" and "instrument" is classified from
the longer phrase (`instrument_bubble`); every keyword-heuristic result has
confidence `low`, while strategies 2-5 always yield confidence `high`. -/
theorem C6_keyword_tiebreak :
    (∀ p, pyContains (pyLower p.stem) "discrete instrument" = true →
      pyContains (pyLower p.stem) "instrument" = true →
      _strategy_keyword_heuristics p =
        some { standard := keywordStandardOf p.parts, category := "instrument_bubble",
               subcategory := _slugify p.stem, confidence := "low",
               method := "keyword_heuristic" }) ∧
    (∀ p r, _strategy_keyword_heuristics p = some r → r.confidence = "low") ∧
    (∀ p r, _strategy_autocad_folder p = some r → r.confidence = "high") ∧
    (∀ p r, _strategy_filename_standard p = some r → r.confidence = "high") ∧
    (∀ p r, _strategy_downloaded_folder p = some r → r.confidence = "high") ∧
    (∀ p r, _strategy_generated_pfx p = some r → r.confidence = "high") := by
  have hsk : sortedKeywords = ("discrete instrument", "instrument_bubble") :: sortedKeywords.tail :=
    rfl
  refine ⟨?_, ?_, ?_, ?_, ?_, ?_⟩
  · intro p hdi _
    unfold _strategy_keyword_heuristics
    rw [hsk]
    simp [List.find?, hdi]
  · intro p r h
    unfold _strategy_keyword_heuristics at h
    try dsimp only at h
    try simp only [] at h
    repeat' split at h
    all_goals first | exact Option.noConfusion h | (cases h; rfl)
  · intro p r h
    unfold _strategy_autocad_folder at h
    try dsimp only at h
    try simp only [] at h
    repeat' split at h
    all_goals first | exact Option.noConfusion h | (cases h; rfl)
  · intro p r h
    unfold _strategy_filename_standard at h
    try dsimp only at h
    try simp only [] at h
    repeat' split at h
    all_goals first | exact Option.noConfusion h | (cases h; rfl)
  · intro p r h
    unfold _strategy_downloaded_folder at h
    try dsimp only at h
    try simp only [] at h
    repeat' split at h
    all_goals first | exact Option.noConfusion h | (cases h; rfl)
  · intro p r h
    unfold _strategy_generated_pfx at h
    try dsimp only at h
    try simp only [] at h
    repeat' split at h
    all_goals first | exact Option.noConfusion h | (cases h; rfl)

/-- Witness for C6 at the stem `discrete instrument x`. -/
theorem C6_keyword_tiebreak_witness :
    pyContains (pyLower exKwPath.stem) "discrete instrument" = true ∧
    pyContains (pyLower exKwPath.stem) "instrument" = true ∧
    _strategy_keyword_heuristics exKwPath =
      some { standard := keywordStandardOf exKwPath.parts, category := "instrument_bubble",
             subcategory := _slugify exKwPath.stem, confidence := "low",
             method := "keyword_heuristic" } :=
  ⟨by decide, by decide, C6_keyword_tiebreak.1 exKwPath (by decide) (by decide)⟩

/-! ## B.3 content identity (C3) -/

/-- C3 (code bug): the two fixture documents differ only by the systematic
renaming `a9x ↦ zq` of their one internal id (definition, `xlink:href`
reference and `url(#...)` reference).  The canonicalizing hash of
`src/utils.py` maps both to the same digest, as the spec requires; but the
dedup pipeline's own `_svg_sha256` in `main.py` hashes the raw (merely
minified) text, and the two raw texts differ, so any collision-free digest
separates them. -/
theorem C3_canonicalization_divergence :
    _canonicalize_svg_ids exSvgA = _canonicalize_svg_ids exSvgB ∧
    (∀ sha256 : String → String, _svg_sha256 sha256 exSvgA = _svg_sha256 sha256 exSvgB) ∧
    exSvgA ≠ exSvgB ∧
    (∀ sha256 : String → String,
      mainSvgSha256 sha256 exSvgA = sha256 exSvgA ∧
      mainSvgSha256 sha256 exSvgB = sha256 exSvgB) := by
  have hcanon : _canonicalize_svg_ids exSvgA = _canonicalize_svg_ids exSvgB := rfl
  exact ⟨hcanon, fun s => congrArg s hcanon, by decide, fun s => ⟨rfl, rfl⟩⟩

/-! ## B.4 snap-point detection (C5, C4, C8, C10) -/

/-- C5 (claim): for a valve-category document where no explicit port marker
fires and the open-end analysis leaves exactly the two floating endpoints
`(0,10)` and `(40,10)` (in either first-seen order), the detector returns
exactly the two SnapPoints `in` at `(0,10)` and `out` at `(40,10)`, the
lower-x point labelled `in`. -/
theorem C5_open_end_symmetry (doc : Doc) (vb : List PyNum)
    (hvb : viewBoxOf doc = .ok vb)
    (hs1 : strategy1Pts doc = .ok [])
    (hfl : floatingOf doc = [(0, 10), (40, 10)] ∨ floatingOf doc = [(40, 10), (0, 10)]) :
    detect_snap_points (some doc) "valve" =
      .ok [⟨"in", PyNum.ofInt 0, PyNum.ofInt 10⟩, ⟨"out", PyNum.ofInt 40, PyNum.ofInt 10⟩] := by
  unfold detect_snap_points
  simp only [hvb, hs1, bind, Except.bind, List.isEmpty_nil, not_false_eq_true, reduceIte,
    Bool.not_true, Bool.false_eq_true, if_false]
  have hoe : _OPEN_END_CATS.contains "valve" = true := rfl
  rcases hfl with h | h <;> rw [h] <;>
    simp only [hoe, not_true, if_false, ite_false, reduceIte, List.isEmpty_cons,
      Bool.false_eq_true, not_false_eq_true, Bool.not_false, if_true, ite_true, pure,
      Except.pure] <;> exact congrArg Except.ok (by decide)

/-- Witness for C5: the path `M0 10 L40 10` under category `valve`. -/
theorem C5_open_end_symmetry_witness :
    viewBoxOf exDocValve = .ok [] ∧ strategy1Pts exDocValve = .ok [] ∧
    floatingOf exDocValve = [(0, 10), (40, 10)] ∧
    detect_snap_points (some exDocValve) "valve" =
      .ok [⟨"in", PyNum.ofInt 0, PyNum.ofInt 10⟩, ⟨"out", PyNum.ofInt 40, PyNum.ofInt 10⟩] :=
  ⟨rfl, rfl, rfl, C5_open_end_symmetry exDocValve [] rfl rfl (Or.inl rfl)⟩

/-- C8 counterexample: a well-formed document whose `viewBox` attribute is
non-numeric makes `detect_snap_points` raise `ValueError` (the conversion
is outside any `try`), so the function is not total on all input
documents. -/
theorem C8_not_total_counterexample :
    detect_snap_points (some exDocBadVb) "valve" = .error () := rfl

/-- C8 (amended): an unparsable document yields `[]`, and a parseable
document with zero drawable geometry (no strategy-1 markers, no floating
endpoints, no bubbles, no bounding-box points) whose numeric attributes
parse also yields `[]`; totality however fails on documents with malformed
numeric attributes (see `C8_not_total_counterexample`). -/
theorem C8_failure_semantics :
    (∀ cat, detect_snap_points none cat = .ok []) ∧
    (∀ (doc : Doc) (cat : String) (vb : List PyNum),
      viewBoxOf doc = .ok vb → strategy1Pts doc = .ok [] →
      floatingOf doc = [] → bubblesOf doc = [] → bboxPoints doc (vbTupleOf vb) = [] →
      detect_snap_points (some doc) cat = .ok []) := by
  refine ⟨fun cat => rfl, ?_⟩
  intro doc cat vb hvb hs1 hfl hbu hbb
  unfold detect_snap_points
  simp only [hvb, hs1, hfl, hbu, hbb, bind, Except.bind, List.isEmpty_nil, not_true,
    Bool.not_true, Bool.false_eq_true, if_false, reduceIte, ite_self, pure, Except.pure]

/-- Witness for C8 at an empty (zero-geometry) document. -/
theorem C8_failure_semantics_witness :
    viewBoxOf ⟨exRootSvg, []⟩ = .ok [] ∧ strategy1Pts ⟨exRootSvg, []⟩ = .ok [] ∧
    floatingOf ⟨exRootSvg, []⟩ = [] ∧ bubblesOf ⟨exRootSvg, []⟩ = [] ∧
    bboxPoints ⟨exRootSvg, []⟩ (vbTupleOf []) = [] ∧
    detect_snap_points (some ⟨exRootSvg, []⟩) "tank" = .ok [] :=
  ⟨rfl, rfl, rfl, rfl, rfl,
   C8_failure_semantics.2 ⟨exRootSvg, []⟩ "tank" [] rfl rfl rfl rfl rfl⟩

/-! ### counting lemmas for the open-end strategy (C10) -/

theorem lookup_bumpCount (l : List ((Int × Int) × Nat)) (k k' : Int × Int) :
    (bumpCount l k).lookup k' =
      if k' = k then some (((l.lookup k').getD 0) + 1) else l.lookup k' := by
  induction l with
  | nil =>
    by_cases h : k' = k
    · subst h; simp [bumpCount, List.lookup]
    · have hb : (k' == k) = false := by simp [h]
      simp [bumpCount, List.lookup, hb, h]
  | cons hd t ih =>
    rcases hd with ⟨k0, n0⟩
    by_cases h0 : k0 = k
    · subst h0
      by_cases h : k' = k0
      · subst h; simp [bumpCount, List.lookup]
      · have hb : (k' == k0) = false := by simp [h]
        simp [bumpCount, List.lookup, hb, h]
    · by_cases h : k' = k0
      · subst h
        have hk : ¬ (k' = k) := fun e => h0 e
        simp [bumpCount, List.lookup, h0, hk]
      · have hb : (k' == k0) = false := by simp [h]
        simp [bumpCount, List.lookup, h0, hb, ih]

theorem mem_map_fst_bumpCount (l : List ((Int × Int) × Nat)) (k x : Int × Int) :
    x ∈ (bumpCount l k).map Prod.fst ↔ x ∈ l.map Prod.fst ∨ x = k := by
  induction l with
  | nil => simp [bumpCount]
  | cons hd t ih =>
    rcases hd with ⟨k0, n0⟩
    by_cases h0 : k0 = k
    · subst h0; simp [bumpCount]
      intro h; exact Or.inl h
    · simp [bumpCount, h0, ih]
      tauto

theorem nodupkeys_bumpCount (l : List ((Int × Int) × Nat)) (k : Int × Int)
    (h : (l.map Prod.fst).Nodup) : ((bumpCount l k).map Prod.fst).Nodup := by
  induction l with
  | nil => simp [bumpCount]
  | cons hd t ih =>
    rcases hd with ⟨k0, n0⟩
    simp only [List.map_cons, List.nodup_cons] at h
    by_cases h0 : k0 = k
    · subst h0
      simp [bumpCount, List.nodup_cons, h.1, h.2]
    · have hnm : k0 ∉ (bumpCount t k).map Prod.fst := by
        rw [mem_map_fst_bumpCount]
        rintro (hm | rfl)
        · exact h.1 hm
        · exact h0 rfl
      simp [bumpCount, h0, List.nodup_cons, hnm, ih h.2]

theorem getD_lookup_foldlBump (eps : List (PyNum × PyNum)) (acc : List ((Int × Int) × Nat))
    (k : Int × Int) :
    (((eps.foldl (fun a p => bumpCount a (p.1.pyRound, p.2.pyRound)) acc).lookup k).getD 0)
      = ((acc.lookup k).getD 0) +
        (eps.filter (fun p => (p.1.pyRound, p.2.pyRound) = k)).length := by
  induction eps generalizing acc with
  | nil => simp
  | cons p t ih =>
    simp only [List.foldl_cons, List.filter_cons]
    rw [ih]
    by_cases h : (p.1.pyRound, p.2.pyRound) = k
    · rw [lookup_bumpCount]
      simp [h, if_pos]
      omega
    · rw [lookup_bumpCount]
      have : ¬ (k = (p.1.pyRound, p.2.pyRound)) := fun e => h e.symm
      simp [h, this]

theorem nodupkeys_foldlBump (eps : List (PyNum × PyNum)) (acc : List ((Int × Int) × Nat))
    (h : (acc.map Prod.fst).Nodup) :
    (((eps.foldl (fun a p => bumpCount a (p.1.pyRound, p.2.pyRound)) acc)).map Prod.fst).Nodup := by
  induction eps generalizing acc with
  | nil => exact h
  | cons p t ih => exact ih _ (nodupkeys_bumpCount _ _ h)

theorem lookup_of_mem_nodupkeys (l : List ((Int × Int) × Nat)) (kn : (Int × Int) × Nat)
    (hnd : (l.map Prod.fst).Nodup) (hm : kn ∈ l) : l.lookup kn.1 = some kn.2 := by
  induction l with
  | nil => cases hm
  | cons hd t ih =>
    rcases hd with ⟨k0, n0⟩
    simp only [List.map_cons, List.nodup_cons] at hnd
    rcases List.mem_cons.mp hm with rfl | hm'
    · simp [List.lookup]
    · have hne : (kn.1 == k0) = false := by
        have : kn.1 ∈ t.map Prod.fst := List.mem_map.mpr ⟨kn, hm', rfl⟩
        have : k0 ≠ kn.1 := fun e => hnd.1 (e ▸ this)
        simp [Ne.symm this]
      simp [List.lookup, hne, ih hnd.2 hm']

theorem enumLabel_coords (i : Nat) (l : List (Int × Int)) (sp : SnapPoint)
    (h : sp ∈ enumLabel i l) : ∃ p : Int × Int, sp.x = PyNum.ofInt p.1 ∧ sp.y = PyNum.ofInt p.2 := by
  induction l generalizing i with
  | nil => cases h
  | cons p t ih =>
    rcases List.mem_cons.mp h with rfl | h'
    · exact ⟨p, rfl, rfl⟩
    · exact ih _ h'

theorem label_floating_int_coords (fl : List (Int × Int)) (cat : String) (sp : SnapPoint)
    (h : sp ∈ _label_floating fl cat) : sp.x.isInt ∧ sp.y.isInt := by
  have key : ∃ p : Int × Int, sp.x = PyNum.ofInt p.1 ∧ sp.y = PyNum.ofInt p.2 := by
    unfold _label_floating at h
    split at h
    · cases h
    · split at h
      · rcases List.mem_append.mp h with hb | he
        · rcases List.mem_cons.mp hb with rfl | hb'
          · exact ⟨_, rfl, rfl⟩
          · rcases List.mem_cons.mp hb' with rfl | hb''
            · exact ⟨_, rfl, rfl⟩
            · cases hb''
        · exact enumLabel_coords _ _ _ he
      · dsimp only at h
        split at h
        · split at h <;>
            (rcases List.mem_cons.mp h with rfl | h'
             · exact ⟨(_, _), rfl, rfl⟩
             · rcases List.mem_cons.mp h' with rfl | h''
               · exact ⟨(_, _), rfl, rfl⟩
               · cases h'')
        · exact enumLabel_coords _ _ _ h
  rcases key with ⟨p, hx, hy⟩
  exact ⟨⟨p.1, hx⟩, ⟨p.2, hy⟩⟩

/-- C10 (claim): open-end candidate endpoints are rounded to integers
before multiplicity counting, so a key hit by two or more raw endpoints has
multiplicity at least 2 and is discarded as non-floating, and every
SnapPoint the open-end strategy emits has integer coordinates. -/
theorem C10_rounding_merge (doc : Doc) (cat : String) :
    (∀ k : Int × Int, 2 ≤ roundedKeyCount doc k → k ∉ floatingOf doc) ∧
    (∀ sp ∈ _label_floating (floatingOf doc) cat, sp.x.isInt ∧ sp.y.isInt) := by
  constructor
  · intro k hk hmem
    unfold floatingOf at hmem
    rcases List.mem_map.mp hmem with ⟨kn, hkn, hfst⟩
    rcases List.mem_filter.mp hkn with ⟨hmem', hcond⟩
    have h1 : kn.2 = 1 := by
      simp only [decide_eq_true_eq] at hcond
      exact hcond.1
    have hnd : ((buildCount (allOpenEps doc)).map Prod.fst).Nodup := by
      unfold buildCount
      exact nodupkeys_foldlBump _ _ (by simp)
    have hlk := lookup_of_mem_nodupkeys _ _ hnd hmem'
    have hcount := getD_lookup_foldlBump (allOpenEps doc) [] kn.1
    unfold buildCount at hlk
    rw [hlk] at hcount
    simp only [Option.getD_some, List.lookup_nil, Option.getD_none, Nat.zero_add] at hcount
    unfold roundedKeyCount at hk
    rw [hfst, h1] at hcount
    rw [← hcount] at hk
    omega
  · intro sp hsp
    exact label_floating_int_coords _ _ _ hsp

/-- Witness for C10: in `exDocMerge` the endpoints `(0,0)` and `(0.4,0.3)`
round to the same key `(0,0)`, which gets multiplicity 2 and is discarded;
the emitted points have integer coordinates. -/
theorem C10_rounding_merge_witness :
    roundedKeyCount exDocMerge (0, 0) = 2 ∧
    (0, 0) ∉ floatingOf exDocMerge ∧
    (⟨"in", PyNum.ofInt 10, PyNum.ofInt 0⟩ : SnapPoint) ∈
      _label_floating (floatingOf exDocMerge) "pipe" ∧
    (PyNum.ofInt 10).isInt ∧ (PyNum.ofInt 0).isInt :=
  ⟨by decide, (C10_rounding_merge exDocMerge "pipe").1 (0, 0) (by decide),
   by decide,
   ((C10_rounding_merge exDocMerge "pipe").2
     ⟨"in", PyNum.ofInt 10, PyNum.ofInt 0⟩ (by decide)).1,
   ((C10_rounding_merge exDocMerge "pipe").2
     ⟨"in", PyNum.ofInt 10, PyNum.ofInt 0⟩ (by decide)).2⟩

/-! ### strategy-1 characterization (C4) -/

theorem strategy1Step_ok (acc : List SnapPoint) (e : Elem) (acc' : List SnapPoint)
    (h : strategy1Step acc e = .ok acc') :
    acc'.map (fun sp => (sp.x, sp.y)) =
      acc.map (fun sp => (sp.x, sp.y)) ++
        (if elemMatchesPort e then
          ((elemCenter? e).toList.map (fun c => (c.1.round2, c.2.round2)))
         else []) := by
  unfold strategy1Step at h
  unfold elemMatchesPort elemCenter?
  by_cases hm : PORT_KEYWORDS.any (fun kw =>
      pyContains (pyLower ((e.get "id").getD "")) kw ||
      pyContains (pyLower ((e.get "class").getD "")) kw)
  · rw [if_pos hm] at h
    rw [if_pos hm]
    by_cases hc : localName e.tag = "circle" ∨ localName e.tag = "ellipse"
    · rw [if_pos hc] at h ⊢
      cases hx : getFloat? e "cx" with
      | none => simp [getFloatE, hx, bind, Except.bind] at h
      | some x =>
        cases hy : getFloat? e "cy" with
        | none => simp [getFloatE, hx, hy, bind, Except.bind, pure, Except.pure] at h
        | some y =>
          simp [getFloatE, hx, hy, bind, Except.bind, pure, Except.pure] at h
          subst h
          simp
    · rw [if_neg hc] at h ⊢
      by_cases hr : localName e.tag = "rect"
      · rw [if_pos hr] at h ⊢
        cases hx : getFloat? e "x" with
        | none => simp [getFloatE, hx, bind, Except.bind] at h
        | some x =>
          cases hw : getFloat? e "width" with
          | none => simp [getFloatE, hx, hw, bind, Except.bind] at h
          | some w =>
            cases hy : getFloat? e "y" with
            | none => simp [getFloatE, hx, hw, hy, bind, Except.bind] at h
            | some y =>
              cases hh : getFloat? e "height" with
              | none => simp [getFloatE, hx, hw, hy, hh, bind, Except.bind] at h
              | some hv =>
                simp [getFloatE, hx, hw, hy, hh, bind, Except.bind, pure, Except.pure] at h
                subst h
                simp
      · rw [if_neg hr] at h ⊢
        by_cases hl : localName e.tag = "line"
        · rw [if_pos hl] at h ⊢
          cases h1 : getFloat? e "x1" with
          | none => simp [getFloatE, h1, bind, Except.bind] at h
          | some x1 =>
            cases h2 : getFloat? e "x2" with
            | none => simp [getFloatE, h1, h2, bind, Except.bind] at h
            | some x2 =>
              cases h3 : getFloat? e "y1" with
              | none => simp [getFloatE, h1, h2, h3, bind, Except.bind] at h
              | some y1 =>
                cases h4 : getFloat? e "y2" with
                | none => simp [getFloatE, h1, h2, h3, h4, bind, Except.bind] at h
                | some y2 =>
                  simp [getFloatE, h1, h2, h3, h4, bind, Except.bind, pure, Except.pure] at h
                  subst h
                  simp
        · rw [if_neg hl] at h ⊢
          simp [bind, Except.bind, pure, Except.pure] at h
          subst h
          simp
  · rw [if_neg hm] at h
    rw [if_neg hm]
    simp [pure, Except.pure] at h
    subst h
    simp

theorem strategy1_fold_coords (es : List Elem) (acc pts : List SnapPoint)
    (h : List.foldlM strategy1Step acc es = .ok pts) :
    pts.map (fun sp => (sp.x, sp.y)) =
      acc.map (fun sp => (sp.x, sp.y)) ++
        ((es.filter (fun e => elemMatchesPort e)).filterMap elemCenter?).map
          (fun c => (c.1.round2, c.2.round2)) := by
  induction es generalizing acc with
  | nil =>
    simp only [List.foldlM_nil, pure, Except.pure] at h
    cases h
    simp
  | cons e t ih =>
    rw [List.foldlM_cons] at h
    cases hstep : strategy1Step acc e with
    | error err => rw [hstep] at h; simp [bind, Except.bind] at h
    | ok acc' =>
      rw [hstep] at h
      simp only [bind, Except.bind] at h
      have hs := strategy1Step_ok acc e acc' hstep
      have ht := ih acc' h
      rw [ht, hs]
      by_cases hm : elemMatchesPort e
      · cases hce : elemCenter? e <;>
          simp [hm, hce, List.filter_cons, List.filterMap_cons, List.append_assoc]
      · simp [hm, List.filter_cons]

/-- C4 (amended): when at least one keyword-matched element has tag
`circle`, `ellipse`, `rect` or `line`, the detector returns exactly the
strategy-1 points — one per such element, at its geometric center (rounded
to 2 decimals), in document order — and no later strategy is evaluated
(the result does not depend on the category); keyword-matched elements of
any other tag (e.g. `path`) contribute no snap point. -/
theorem C4_explicit_marker_amended (doc : Doc) (vb : List PyNum) (pts : List SnapPoint)
    (hvb : viewBoxOf doc = .ok vb) (h1 : strategy1Pts doc = .ok pts) (hne : pts ≠ []) :
    (∀ cat, detect_snap_points (some doc) cat = .ok pts) ∧
    pts.map (fun sp => (sp.x, sp.y)) =
      ((doc.iter.filter (fun e => elemMatchesPort e)).filterMap elemCenter?).map
        (fun c => (c.1.round2, c.2.round2)) := by
  constructor
  · intro cat
    unfold detect_snap_points
    have hie : pts.isEmpty = false := by
      cases pts
      · exact absurd rfl hne
      · rfl
    simp only [hvb, h1, bind, Except.bind, hie, Bool.false_eq_true, not_false_eq_true,
      Bool.not_false, if_true, ite_true, pure, Except.pure]
  · have := strategy1_fold_coords doc.iter [] pts h1
    simpa using this

/-- C4 counterexample: in `exDocPort` the only keyword-matched element is a
`path`, so — contrary to the claim — strategy 1 yields nothing for it and
the open-end strategy runs instead, returning two endpoint SnapPoints
rather than one marker SnapPoint at the path's geometric center. -/
theorem C4_explicit_marker_counterexample :
    elemMatchesPort ⟨"path", [("id", "port1"), ("d", "M0 0 L10 0")]⟩ = true ∧
    (exDocPort.iter.filter (fun e => elemMatchesPort e)).length = 1 ∧
    detect_snap_points (some exDocPort) "valve" =
      .ok [⟨"in", PyNum.ofInt 0, PyNum.ofInt 0⟩, ⟨"out", PyNum.ofInt 10, PyNum.ofInt 0⟩] ∧
    ([⟨"in", PyNum.ofInt 0, PyNum.ofInt 0⟩, ⟨"out", PyNum.ofInt 10, PyNum.ofInt 0⟩] :
      List SnapPoint).length ≠ 1 :=
  ⟨by decide, by decide, rfl, by decide⟩

/-- Witness for C4: a document with one matched circle and one matched
path; strategy 1 returns the circle's center only, for every category. -/
theorem C4_explicit_marker_amended_witness :
    viewBoxOf exDocMarker = .ok [] ∧
    strategy1Pts exDocMarker = .ok [⟨"port-a", ⟨500, 100⟩, ⟨700, 100⟩⟩] ∧
    ([⟨"port-a", ⟨500, 100⟩, ⟨700, 100⟩⟩] : List SnapPoint) ≠ [] ∧
    detect_snap_points (some exDocMarker) "valve" =
      .ok [⟨"port-a", ⟨500, 100⟩, ⟨700, 100⟩⟩] ∧
    ([⟨"port-a", ⟨500, 100⟩, ⟨700, 100⟩⟩] : List SnapPoint).map (fun sp => (sp.x, sp.y)) =
      ((exDocMarker.iter.filter (fun e => elemMatchesPort e)).filterMap elemCenter?).map
        (fun c => (c.1.round2, c.2.round2)) :=
  ⟨rfl, rfl, by decide,
   (C4_explicit_marker_amended exDocMarker [] [⟨"port-a", ⟨500, 100⟩, ⟨700, 100⟩⟩]
      rfl rfl (by decide)).1 "valve",
   (C4_explicit_marker_amended exDocMarker [] [⟨"port-a", ⟨500, 100⟩, ⟨700, 100⟩⟩]
      rfl rfl (by decide)).2⟩

/-! ### decimal-numeral and stem-resolution lemmas (C9) -/

theorem toDigitsCore_acc (b : Nat) :
    ∀ (f n : Nat) (ds : List Char),
      Nat.toDigitsCore b f n ds = Nat.toDigitsCore b f n [] ++ ds := by
  intro f
  induction f with
  | zero => intro n ds; simp [Nat.toDigitsCore]
  | succ f ih =>
    intro n ds
    simp only [Nat.toDigitsCore]
    by_cases h : n / b = 0
    · simp [h]
    · simp only [h, if_false, ite_false]
      rw [ih (n / b) [Nat.digitChar (n % b)], ih (n / b) (Nat.digitChar (n % b) :: ds)]
      rw [List.append_assoc]
      rfl

theorem toDigitsCore_eq_specRepr :
    ∀ (f n : Nat), n < f → Nat.toDigitsCore 10 f n [] = specRepr n := by
  intro f
  induction f with
  | zero => intro n h; omega
  | succ f ih =>
    intro n h
    simp only [Nat.toDigitsCore]
    by_cases h10 : n / 10 = 0
    · have hn10 : n < 10 := by omega
      rw [if_pos h10]
      rw [specRepr]
      rw [if_pos hn10, Nat.mod_eq_of_lt hn10]
    · rw [if_neg h10]
      have hnge : ¬ n < 10 := by
        intro hlt
        exact h10 (Nat.div_eq_of_lt hlt)
      rw [toDigitsCore_acc]
      rw [ih (n / 10) (by omega)]
      conv_rhs => rw [specRepr]
      rw [if_neg hnge]

theorem repr_eq_specRepr (n : Nat) : Nat.repr n = (specRepr n).asString := by
  unfold Nat.repr Nat.toDigits
  rw [toDigitsCore_eq_specRepr (n + 1) n (Nat.lt_succ_self n)]

theorem digitChar_inj_lt10 (a b : Nat) (ha : a < 10) (hb : b < 10)
    (h : Nat.digitChar a = Nat.digitChar b) : a = b := by
  have key : ∀ x y : Fin 10, Nat.digitChar x.val = Nat.digitChar y.val → x = y := by decide
  have := key ⟨a, ha⟩ ⟨b, hb⟩ h
  exact congrArg Fin.val this

theorem specRepr_ne_nil (n : Nat) : specRepr n ≠ [] := by
  rw [specRepr]
  by_cases h : n < 10
  · simp [h]
  · simp [h]

theorem specRepr_inj : ∀ m n : Nat, specRepr m = specRepr n → m = n := by
  intro m
  induction m using Nat.strong_induction_on with
  | _ m ih =>
    intro n h
    by_cases hm : m < 10 <;> by_cases hn : n < 10
    · have em : specRepr m = [Nat.digitChar m] := by
        rw [specRepr]; rw [if_pos hm]
      have en : specRepr n = [Nat.digitChar n] := by
        rw [specRepr]; rw [if_pos hn]
      rw [em, en] at h
      exact digitChar_inj_lt10 m n hm hn (List.singleton_injective h)
    · have em : specRepr m = [Nat.digitChar m] := by
        rw [specRepr]; rw [if_pos hm]
      have en : specRepr n = specRepr (n / 10) ++ [Nat.digitChar (n % 10)] := by
        rw [specRepr]; rw [if_neg hn]
      rw [em, en] at h
      have hlen := congrArg List.length h
      simp only [List.length_singleton, List.length_append, List.length_cons,
        List.length_nil] at hlen
      have h0 : (specRepr (n / 10)).length = 0 := by omega
      exact absurd (List.length_eq_zero.mp h0) (specRepr_ne_nil _)
    · have em : specRepr m = specRepr (m / 10) ++ [Nat.digitChar (m % 10)] := by
        rw [specRepr]; rw [if_neg hm]
      have en : specRepr n = [Nat.digitChar n] := by
        rw [specRepr]; rw [if_pos hn]
      rw [em, en] at h
      have hlen := congrArg List.length h
      simp only [List.length_singleton, List.length_append, List.length_cons,
        List.length_nil] at hlen
      have h0 : (specRepr (m / 10)).length = 0 := by omega
      exact absurd (List.length_eq_zero.mp h0) (specRepr_ne_nil _)
    · have em : specRepr m = specRepr (m / 10) ++ [Nat.digitChar (m % 10)] := by
        rw [specRepr]; rw [if_neg hm]
      have en : specRepr n = specRepr (n / 10) ++ [Nat.digitChar (n % 10)] := by
        rw [specRepr]; rw [if_neg hn]
      rw [em, en] at h
      have h2 := congrArg List.reverse h
      simp only [List.reverse_append, List.reverse_cons, List.reverse_nil,
        List.nil_append, List.singleton_append, List.cons.injEq] at h2
      rcases h2 with ⟨hd, htl⟩
      have hdig : m % 10 = n % 10 :=
        digitChar_inj_lt10 _ _ (Nat.mod_lt _ (by omega)) (Nat.mod_lt _ (by omega)) hd
      have hrec : specRepr (m / 10) = specRepr (n / 10) := by
        have := congrArg List.reverse htl
        simpa using this
      have hdiv : m / 10 = n / 10 := ih (m / 10) (Nat.div_lt_self (by omega) (by omega)) _ hrec
      omega

theorem nat_repr_inj (m n : Nat) (h : Nat.repr m = Nat.repr n) : m = n := by
  rw [repr_eq_specRepr, repr_eq_specRepr] at h
  have : specRepr m = specRepr n := congrArg String.data h
  exact specRepr_inj m n this

theorem repr_data_len_pos (n : Nat) : 1 ≤ (Nat.repr n).data.length := by
  rw [repr_eq_specRepr]
  cases hsr : specRepr n with
  | nil => exact absurd hsr (specRepr_ne_nil n)
  | cons c t => simp [List.asString]

theorem stemCandidate_inj (base : String) : Function.Injective (stemCandidate base) := by
  intro j k h
  match j, k with
  | 0, 0 => rfl
  | 0, k + 1 =>
    exfalso
    have hd := congrArg (fun s => s.data.length) h
    simp only [stemCandidate, String.data_append, List.length_append] at hd
    have := repr_data_len_pos (k + 2)
    omega
  | j + 1, 0 =>
    exfalso
    have hd := congrArg (fun s => s.data.length) h
    simp only [stemCandidate, String.data_append, List.length_append] at hd
    have := repr_data_len_pos (j + 2)
    omega
  | j + 1, k + 1 =>
    have hd := congrArg String.data h
    simp only [stemCandidate, String.data_append] at hd
    have h1 := List.append_cancel_left hd
    have : Nat.repr (j + 2) = Nat.repr (k + 2) := String.ext h1
    have := nat_repr_inj _ _ this
    omega

theorem stemCandidate_exists_free (base : String) (avoid : Finset String) :
    ∃ j ≤ avoid.card, stemCandidate base j ∉ avoid := by
  by_contra hc
  push_neg at hc
  have hsub : (Finset.range (avoid.card + 1)).image (stemCandidate base) ⊆ avoid := by
    intro s hs
    rcases Finset.mem_image.mp hs with ⟨j, hj, rfl⟩
    exact hc j (by simpa [Nat.lt_succ_iff] using Finset.mem_range.mp hj)
  have hcard := Finset.card_le_card hsub
  rw [Finset.card_image_of_injective _ (stemCandidate_inj base), Finset.card_range] at hcard
  omega

theorem resolveStemAux_not_mem (base : String) (avoid : Finset String) :
    ∀ (fuel k : Nat), (∃ j < fuel, stemCandidate base (k + j) ∉ avoid) →
      resolveStemAux base avoid fuel k ∉ avoid := by
  intro fuel
  induction fuel with
  | zero =>
    rintro k ⟨j, hj, _⟩
    omega
  | succ fuel ih =>
    rintro k ⟨j, hj, hfree⟩
    rw [resolveStemAux]
    by_cases hmem : stemCandidate base k ∈ avoid
    · rw [if_pos hmem]
      apply ih
      cases j with
      | zero => exact absurd hmem (by simpa using hfree)
      | succ j' =>
        refine ⟨j', by omega, ?_⟩
        rw [show k + 1 + j' = k + (j' + 1) by omega]
        exact hfree
    · rw [if_neg hmem]
      exact hmem

theorem resolve_stem_spec (base : String) (disk used : Finset String) :
    (resolve_stem base disk used).1 ∉ used ∧ (resolve_stem base disk used).1 ∉ disk ∧
    (resolve_stem base disk used).2 = insert (resolve_stem base disk used).1 used := by
  have hnm : (resolve_stem base disk used).1 ∉ used ∪ disk := by
    unfold resolve_stem
    apply resolveStemAux_not_mem
    rcases stemCandidate_exists_free base (used ∪ disk) with ⟨j, hj, hfree⟩
    exact ⟨j, by omega, by simpa using hfree⟩
  exact ⟨fun h => hnm (Finset.mem_union_left _ h),
         fun h => hnm (Finset.mem_union_right _ h), rfl⟩

theorem processStems_not_mem :
    ∀ (bases : List String) (disk used : Finset String) (s : String),
      s ∈ processStems bases disk used → s ∉ used := by
  intro bases
  induction bases with
  | nil =>
    intro _ _ s h
    cases h
  | cons b bs ih =>
    intro disk used s h
    rw [processStems] at h
    rcases List.mem_cons.mp h with rfl | h'
    · exact (resolve_stem_spec b disk used).1
    · have hs := ih disk _ s h'
      rw [(resolve_stem_spec b disk used).2.2] at hs
      exact fun hm => hs (Finset.mem_insert_of_mem hm)

theorem processStems_pairwise :
    ∀ (bases : List String) (disk used : Finset String),
      (processStems bases disk used).Pairwise (· ≠ ·) := by
  intro bases
  induction bases with
  | nil => intro _ _; exact List.Pairwise.nil
  | cons b bs ih =>
    intro disk used
    rw [processStems]
    refine List.Pairwise.cons ?_ (ih disk _)
    intro s hs heq
    have hnm := processStems_not_mem bs disk _ s hs
    rw [(resolve_stem_spec b disk used).2.2] at hnm
    exact hnm (heq ▸ Finset.mem_insert_self _ _)

/-- C9 (claim): every `resolve_stem` call returns a stem that is free in the
reservation set and on disk and adds it to the reservation set before
returning; consequently the stems returned by any sequence of calls sharing
one per-directory reservation set are pairwise distinct; two files with the
same normalized base stem `foo` destined for the same directory get `foo`
and `foo_2`. -/
theorem C9_stem_collision :
    (∀ (base : String) (disk used : Finset String),
      (resolve_stem base disk used).1 ∉ used ∧
      (resolve_stem base disk used).1 ∉ disk ∧
      (resolve_stem base disk used).2 = insert (resolve_stem base disk used).1 used) ∧
    (∀ (bases : List String) (disk used : Finset String),
      (processStems bases disk used).Pairwise (· ≠ ·)) ∧
    processStems ["foo", "foo"] ∅ ∅ = ["foo", "foo_2"] :=
  ⟨resolve_stem_spec, processStems_pairwise, rfl⟩
